import Mathlib

/-!
Shallow embedding of the object-database server core
(`object_database/server.py`): the transaction engine
(`_handleNewTransaction`), the subscription machinery
(`_handleSubscription`), and the connection lifecycle
(`addConnection`, `dropConnection`, `_createConnectionEntry`,
`_dropConnectionEntry`).

Keys are modelled structurally: the spec describes the key encoder as a
bijection between byte strings and the component tuples of each key
family, with a reserved prefix per family so no parse can cross
families.  We therefore represent each key family by its component
record and the union of families by an inductive type.

Dictionaries held in server state are modelled as functions into
`Option`, with per-key loops embedded as pointwise updates; dictionaries
travelling in messages are association lists.  Python sets become
`Finset`.  Integers are unbounded in Python, so counters and version
numbers are `Int`.
-/

namespace ObjectDatabase

/-- A channel identifier (stands for a `ConnectedChannel` object). -/
abbrev Chan := Nat

/-- Components of a data-cell key `data_key(schema, type, identity, field)`.
Modelled from the spec: the key encoder (`keymapping`) is not part of the
source shown; the spec states it is bijective on component tuples. -/
structure DataKey where
  schema : String
  typename : String
  ident : String
  fieldname : String
deriving DecidableEq, Repr

/-- Components of an index-entry key
`index_key(schema, type, field, value_hash)`.
Modelled from the spec: `split_index_key_full` recovers all four
components. -/
structure IndexKey where
  schema : String
  typename : String
  fieldname : String
  fieldval : String
deriving DecidableEq, Repr

/-- Components of a reverse-index pointer key
`data_reverse_index_key(identity, field)`.  Modelled from the spec. -/
structure RevKey where
  ident : String
  fieldname : String
deriving DecidableEq, Repr

/-- The union of the key families understood by the KV store.  Modelled
from the spec: the encoder reserves a distinct prefix per family, so the
families are disjoint. -/
inductive DBKey where
  | data (k : DataKey)
  | index (k : IndexKey)
  | rev (k : RevKey)
  | group (schema typename fieldname : String)
deriving DecidableEq, Repr

/-- Modelled from the spec: `index_value_to_hash(True)`, the
client-supplied digest of the boolean `True` used by the `" exists"`
index.  Only its equality behaviour matters. -/
def trueHash : String := "hash(True)"

/-- The `" exists"` data key of a `core_schema.Connection` object.
Modelled from the spec (`core_schema` is not part of the source shown). -/
def connectionExistsKey (ident : String) : DataKey :=
  ⟨"core", "Connection", ident, " exists"⟩

/-- The `" exists"` index of `core_schema.Connection`.  Modelled from
the spec. -/
def connectionExistsIndex : IndexKey :=
  ⟨"core", "Connection", " exists", trueHash⟩

/-- Enumerate a set of identities as a list (Python set iteration; the
order a Python set yields is arbitrary, we fix the sorted one). -/
def fsList (s : Finset String) : List String := s.sort (· ≤ ·)

/-- Enumerate a set of channel ids as a list in ascending order
(Python set iteration; the order a Python set yields is arbitrary, we
fix the ascending one). -/
def chanSeq (s : Finset Chan) : List Chan :=
  (List.range (s.sup id + 1)).filter (fun c => c ∈ s)

/-- Association-list lookup (Python `dict` access / `.get`). -/
def alookup {α β : Type} [DecidableEq α] (k : α) : List (α × β) → Option β
  | [] => none
  | p :: rest => if p.1 = k then some p.2 else alookup k rest

/-- Association-list insert-or-replace (Python `dict` item assignment). -/
def assocSet {α β : Type} [DecidableEq α] (l : List (α × β)) (k : α) (v : β) :
    List (α × β) :=
  if (alookup k l).isSome then l.map (fun p => if p.1 = k then (k, v) else p)
  else l ++ [(k, v)]

/-- Python `dict.update` with a list of pairs. -/
def assocSetMany {α β : Type} [DecidableEq α]
    (l : List (α × β)) (upds : List (α × β)) : List (α × β) :=
  upds.foldl (fun acc p => assocSet acc p.1 p.2) l

/-- Python `dict.setdefault(k, set()).add(v)` on a map of sets. -/
def assocInsertAdd {α : Type} [DecidableEq α]
    (l : List (α × Finset String)) (k : α) (v : String) :
    List (α × Finset String) :=
  match alookup k l with
  | some s => assocSet l k (s ∪ {v})
  | none => l ++ [(k, ({v} : Finset String))]

/-- A loop that threads a state and appends the messages each iteration
emits (the shape of the broadcast loops in `_handleNewTransaction`). -/
def accumFold {α σ μ : Type} (g : σ → α → σ × List μ) (init : σ)
    (l : List α) : σ × List μ :=
  l.foldl (fun acc p => let r := g acc.1 p; (r.1, acc.2 ++ r.2)) (init, [])

/-- As `accumFold`, additionally threading a second accumulator through
the iterations. -/
def accumFold2 {α σ μ β : Type} (g : σ → α → β → σ × List μ × β)
    (init : σ) (b0 : β) (l : List α) : σ × List μ × β :=
  l.foldl
    (fun acc p =>
      let r := g acc.1 p acc.2.2
      (r.1, acc.2.1 ++ r.2.1, r.2.2))
    (init, [], b0)

/-- As `accumFold2`, but an iteration may fail (its third component is
`none`): the loop then stops at the failing iteration — the state
mutations and messages of the completed part stand, nothing after runs —
the way an exception raised inside a Python `for` loop leaves earlier
iterations' effects in place. -/
def accumFold2E {α σ μ β : Type} (g : σ → α → β → σ × List μ × Option β) :
    List α → σ → β → σ × List μ × Option β
  | [], s, b => (s, [], some b)
  | a :: l, s, b =>
    let r := g s a b
    match r.2.2 with
    | none => (r.1, r.2.1, none)
    | some b2 =>
      let rest := accumFold2E g l r.1 b2
      (rest.1, r.2.1 ++ rest.2.1, rest.2.2)

/-- The KV store contract the server consumes.  Modelled from the spec:
plain cells (`getSeveral` / part of `setSeveral`) and identity sets
(`getSetMembers` / set deltas of `setSeveral`).  The store itself is not
part of the source shown. -/
structure KVStore where
  cells : DBKey → Option String
  sets : DBKey → Finset String

/-- Modelled from the spec:
`setSeveral(kvs, setAdds, setRemoves) → (newlyNonEmptySets, newlyEmptySets)`,
atomic, returning for each mutated set whether it transitioned
empty↔non-empty. -/
def KVStore.setSeveral (kv : KVStore) (kvs : List (DBKey × Option String))
    (adds removes : List (DBKey × Finset String)) :
    KVStore × List DBKey × List DBKey :=
  let cells2 := kvs.foldl
    (fun c p => fun k => if k = p.1 then p.2 else c k) kv.cells
  let sets1 := adds.foldl
    (fun f p => fun k => if k = p.1 then f k ∪ p.2 else f k) kv.sets
  let sets2 := removes.foldl
    (fun f p => fun k => if k = p.1 then f k \ p.2 else f k) sets1
  let touched := adds.map Prod.fst ++ removes.map Prod.fst
  let newSets := touched.filter (fun k => kv.sets k = ∅ ∧ sets2 k ≠ ∅)
  let droppedSets := touched.filter (fun k => kv.sets k ≠ ∅ ∧ sets2 k = ∅)
  (⟨cells2, sets2⟩, newSets, droppedSets)

/-- A type definition inside a schema definition: lists of plain fields
and of indexed fields (`DefineSchema`). -/
structure TypeDef where
  fields : List String
  indices : List String
deriving DecidableEq, Repr

/-- A schema definition: an (insertion-ordered) map
typename → type definition. -/
abbrev SchemaDef := List (String × TypeDef)

/-- The payload of a `Subscribe` message. -/
structure SubMsg where
  schema : String
  typename : Option String
  fieldname_and_value : Option (String × String)
deriving DecidableEq, Repr

/-- Server-to-client messages (the variants the embedded code emits). -/
inductive SMsg where
  | InitMsg (transaction_num : Int) (connIdentity : String)
  | Subscription (schema : String) (typename : Option String)
      (fieldname_and_value : Option (String × String))
      (values : List (DataKey × Option String))
      (sets : List (IndexKey × Finset String))
      (tid : Int) (identities : Option (Finset String))
  | SubscriptionIncrease (schema typename : String)
      (fieldname_and_value : String × String) (identities : Finset String)
  | Transaction (writes : List (DataKey × Option String))
      (set_adds set_removes : List (IndexKey × Finset String))
      (transaction_id : Int)

/-- Per-channel state held by the connection registry
(`ConnectedChannel` plus its entry in `_clientChannels`). -/
structure ChannelState where
  connIdentity : String
  definedSchemas : String → Option SchemaDef
  subscribedTypes : Finset (String × String)
  subscribedIds : Finset String
  subscribedIndexKeys : Finset IndexKey

/-- The server state (`Server.__init__` fields that the claims are
about). -/
structure ServerState where
  clientChannels : Chan → Option ChannelState
  cur_transaction_num : Int
  version_numbers : DBKey → Option Int
  type_to_channel : (String × String) → Option (Finset Chan)
  index_to_channel : IndexKey → Option (Finset Chan)
  id_to_channel : String → Option (Finset Chan)
  kvstore : KVStore

/-- The set of channels recorded in a fan-out bucket, with an absent
entry read as the empty set (`dict.get(k, ())`). -/
def chanBucket {κ : Type} (m : κ → Option (Finset Chan)) (k : κ) :
    Finset Chan :=
  (m k).getD ∅

/-- Python loop `for x in xs: m.setdefault(x, set()).add(ch)` on a
fan-out map, as a pointwise update. -/
def bucketAddMany {κ : Type} [DecidableEq κ]
    (m : κ → Option (Finset Chan)) (ks : Finset κ) (ch : Chan) :
    κ → Option (Finset Chan) :=
  fun k => if k ∈ ks then some (chanBucket m k ∪ {ch}) else m k

/-- Update the state of one registered channel. -/
def updateChannel (s : ServerState) (ch : Chan)
    (f : ChannelState → ChannelState) : ServerState :=
  { s with clientChannels :=
      fun c => if c = ch then (s.clientChannels c).map f
               else s.clientChannels c }

/-- Enroll channel `ch` on every identity in `ids`: add each identity to
`_id_to_channel` pointing at `ch`, and add the identities to the
channel's `subscribedIds` (the paired loops at server.py:252-254,
429-431 and 501-503). -/
def enrollIds (s : ServerState) (ch : Chan) (ids : Finset String) :
    ServerState :=
  { updateChannel s ch
      (fun cs => { cs with subscribedIds := cs.subscribedIds ∪ ids }) with
    id_to_channel := bucketAddMany s.id_to_channel ids ch }

/-- Enroll channel `ch` on a full index key (server.py:259-260). -/
def enrollIndexKey (s : ServerState) (ch : Chan) (ik : IndexKey) :
    ServerState :=
  { updateChannel s ch
      (fun cs =>
        { cs with subscribedIndexKeys := cs.subscribedIndexKeys ∪ {ik} }) with
    index_to_channel := bucketAddMany s.index_to_channel {ik} ch }

/-- Enroll channel `ch` on a `(schema, typename)` pair
(server.py:266-270). -/
def enrollType (s : ServerState) (ch : Chan) (st : String × String) :
    ServerState :=
  { updateChannel s ch
      (fun cs => { cs with subscribedTypes := cs.subscribedTypes ∪ {st} }) with
    type_to_channel := bucketAddMany s.type_to_channel {st} ch }

/-- Result of a commit attempt: the assertion at server.py:409 failed
(raises out of `_handleNewTransaction`), the broadcast splice
dereferenced a missing schema or type definition
(`typedef = channel.definedSchemas.get(schema_name).get(typename)` at
server.py:360 followed by `typedef.fields` at 363, with no `None`
guard — an `AttributeError` raises out of `_handleNewTransaction`), the
conflict check returned `False`, or the transaction committed
(`True`). -/
inductive TxnRes where
  | assertFailed
  | spliceError
  | failed
  | ok
deriving DecidableEq, Repr

/-- `indexReverseLookupKvs` (server.py:324-339): clear the reverse
pointer of every removed identity, then set the reverse pointer of every
added identity to the index key's value hash (adds overwrite removes for
the same pointer, as dict assignment does). -/
def indexReverseLookupKvs (adds removes : List (IndexKey × Finset String)) :
    List (DBKey × Option String) :=
  (removes.flatMap (fun p => (fsList p.2).map
      (fun i => (DBKey.rev ⟨i, p.1.fieldname⟩, (none : Option String))))) ++
  (adds.flatMap (fun p => (fsList p.2).map
      (fun i => (DBKey.rev ⟨i, p.1.fieldname⟩, some p.1.fieldval))))

/-- One entry of the writer's implicit-subscription loop
(server.py:425-432): an add into an `" exists"` index whose
`(schema, type)` the writer is not type-subscribed to pre-enrolls the
writer on the added identities and broadcasts a `SubscriptionIncrease`. -/
def writerExpandEntry (s : ServerState) (ch : Chan)
    (p : IndexKey × Finset String) : ServerState × List (Chan × SMsg) :=
  if p.1.fieldname = " exists" then
    match s.clientChannels ch with
    | some cs =>
      if (p.1.schema, p.1.typename) ∈ cs.subscribedTypes then (s, [])
      else
        (enrollIds s ch p.2,
         [(ch, SMsg.SubscriptionIncrease p.1.schema p.1.typename
              (p.1.fieldname, p.1.fieldval) p.2)])
    | none => (s, [])
  else (s, [])

/-- The writer's implicit-subscription loop over all `set_adds` entries
(server.py:422-432). -/
def writerExpansion (s : ServerState) (ch : Chan)
    (sa : List (IndexKey × Finset String)) :
    ServerState × List (Chan × SMsg) :=
  accumFold (fun t p => writerExpandEntry t ch p) s sa

/-- The version recorded for a key, with a missing entry read as `-1`
(`self._version_numbers.get(key, -1)` at server.py:456). -/
def recordedVersion (vn : DBKey → Option Int) (k : DBKey) : Int :=
  (vn k).getD (-1)

/-- The conflict check (server.py:453-458): some precondition key was
mutated after `as_of_version`. -/
def conflictB (vn : DBKey → Option Int)
    (keys_to_check : List DataKey) (indices_to_check : List IndexKey)
    (as_of_version : Int) : Bool :=
  (keys_to_check.map DBKey.data ++ indices_to_check.map DBKey.index).any
    (fun k => as_of_version < recordedVersion vn k)

/-- `_increaseBroadcastTransactionToInclude` (server.py:355-385): splice
the full state of the newly subscribed identities into the broadcast
`key_value` / `set_adds`, using one channel's schema definition.
Returns `none` when the channel's definition has no entry for the
schema or the typename: the source has no `None` guard on
`channel.definedSchemas.get(schema_name).get(typename)` (line 360), so
`typedef.fields` (line 363) raises an `AttributeError` there. -/
def spliceOne (kv : KVStore) (defnOf : String → Option SchemaDef)
    (ik : IndexKey) (ids : Finset String)
    (bc : List (DataKey × Option String) × List (IndexKey × Finset String)) :
    Option
      (List (DataKey × Option String) × List (IndexKey × Finset String)) :=
  match (defnOf ik.schema).bind (fun d => alookup ik.typename d) with
  | none => none
  | some td =>
    let idList := fsList ids
    let newKvs := td.fields.flatMap (fun f => idList.map (fun i =>
        ((⟨ik.schema, ik.typename, i, f⟩ : DataKey),
         kv.cells (DBKey.data ⟨ik.schema, ik.typename, i, f⟩))))
    let bcKv := assocSetMany bc.1 newKvs
    let bcAdds := td.indices.foldl (fun acc f =>
        idList.foldl (fun acc2 i =>
          match kv.cells (DBKey.rev ⟨i, f⟩) with
          | none => acc2
          | some h => assocInsertAdd acc2 ⟨ik.schema, ik.typename, f, h⟩ i)
          acc) bc.2
    some (bcKv, bcAdds)

/-- One subscriber of an index key during recipient expansion
(server.py:499-507): enroll the channel on the identities it does not
already track and send it a `SubscriptionIncrease`. -/
def indexExpandChan (s : ServerState) (ik : IndexKey) (adds : Finset String)
    (ch : Chan) : ServerState × List (Chan × SMsg) × Finset String :=
  match s.clientChannels ch with
  | none => (s, [], ∅)
  | some cs =>
    let newIds := adds \ cs.subscribedIds
    (enrollIds s ch newIds,
     [(ch, SMsg.SubscriptionIncrease ik.schema ik.typename
          (ik.fieldname, ik.fieldval) newIds)],
     newIds)

/-- The broadcast splice guarded by `idsToAddToTransaction`
(server.py:509-516), reading the schema definition off the last channel
the subscriber loop iterated.  `none` stands for the exception raised
inside `_increaseBroadcastTransactionToInclude` when the definition
lookup comes back empty. -/
def spliceAfter (s : ServerState) (chans : List Chan) (ik : IndexKey)
    (idsToAdd : Finset String)
    (bc : List (DataKey × Option String) × List (IndexKey × Finset String)) :
    Option
      (List (DataKey × Option String) × List (IndexKey × Finset String)) :=
  if idsToAdd = ∅ then some bc
  else
    match chans.getLast?.bind (fun c => s.clientChannels c) with
    | none => none
    | some cs => spliceOne s.kvstore cs.definedSchemas ik idsToAdd bc

/-- One `set_adds` entry of the recipient-expansion loop
(server.py:495-516): walk the index key's subscribers, enroll each on
its new identities, then splice the backing data into the broadcast
using the last channel iterated. -/
def indexExpandEntry (s : ServerState) (p : IndexKey × Finset String)
    (bc : List (DataKey × Option String) × List (IndexKey × Finset String)) :
    ServerState × List (Chan × SMsg) ×
      Option
        (List (DataKey × Option String) × List (IndexKey × Finset String)) :=
  match s.index_to_channel p.1 with
  | none => (s, [], some bc)
  | some bkt =>
    let chans := chanSeq bkt
    let r := accumFold2
      (fun t ch acc2 =>
        let r1 := indexExpandChan t p.1 p.2 ch
        (r1.1, r1.2.1, acc2 ∪ r1.2.2))
      s (∅ : Finset String) chans
    (r.1, r.2.1, spliceAfter r.1 chans p.1 r.2.2 bc)

/-- The writer-expansion phase as dispatched on the source channel:
synthetic transactions (`sourceChannel is None`) skip it
(server.py:422). -/
def expandedOf (s1 : ServerState) (source : Option Chan)
    (sa : List (IndexKey × Finset String)) :
    ServerState × List (Chan × SMsg) :=
  match source with
  | none => (s1, [])
  | some ch => writerExpansion s1 ch sa

/-- The part of `_handleNewTransaction` after a passed conflict check
(server.py:460-545): version stamping, KV application, group-listing
maintenance, recipient expansion, and building the broadcast.  `s2` is
the state after the counter bump and writer expansion;
`set_adds`/`set_removes` are already stripped of empty entries.  When
the recipient-expansion splice hits a subscriber whose schema
definition lacks the schema or typename, the exception truncates the
loop: the result is the partial state, the messages written before the
raise, and `TxnRes.spliceError`; no `Transaction` broadcast is built. -/
def commitApply (s2 : ServerState)
    (key_value : List (DataKey × Option String))
    (set_adds set_removes : List (IndexKey × Finset String))
    (transaction_id : Int) : ServerState × TxnRes × List (Chan × SMsg) :=
  let keysWritingTo := key_value.map Prod.fst
  let setsWritingTo := (set_adds ++ set_removes).map Prod.fst
  let schemaTypePairsWriting : Finset (String × String) :=
    (keysWritingTo.map (fun k => (k.schema, k.typename))).toFinset ∪
    (setsWritingTo.map (fun k => (k.schema, k.typename))).toFinset
  let identities_mentioned : Finset String :=
    (keysWritingTo.map (fun k => k.ident)).toFinset ∪
    ((set_adds ++ set_removes).foldl (fun acc p => acc ∪ p.2) ∅)
  let s3 : ServerState :=
    { s2 with version_numbers := fun k =>
        if k ∈ keysWritingTo.map DBKey.data ++ setsWritingTo.map DBKey.index
        then some transaction_id else s2.version_numbers k }
  let target_kvs :=
    key_value.map (fun p => (DBKey.data p.1, p.2)) ++
    indexReverseLookupKvs set_adds set_removes
  let applied := s3.kvstore.setSeveral target_kvs
    (set_adds.map (fun p => (DBKey.index p.1, p.2)))
    (set_removes.map (fun p => (DBKey.index p.1, p.2)))
  let groupAdds := applied.2.1.filterMap (fun k =>
    match k with
    | DBKey.index ik =>
      some (DBKey.group ik.schema ik.typename ik.fieldname,
            ({ik.fieldval} : Finset String))
    | _ => none)
  let groupRemoves := applied.2.2.filterMap (fun k =>
    match k with
    | DBKey.index ik =>
      some (DBKey.group ik.schema ik.typename ik.fieldname,
            ({ik.fieldval} : Finset String))
    | _ => none)
  let kv2 := (applied.1.setSeveral [] groupAdds groupRemoves).1
  let s4 : ServerState := { s3 with kvstore := kv2 }
  let step10 := accumFold2E indexExpandEntry set_adds s4 (key_value, set_adds)
  let s5 := step10.1
  let incMsgs := step10.2.1
  match step10.2.2 with
  | none => (s5, TxnRes.spliceError, incMsgs)
  | some bc =>
    let channelsTriggered : Finset Chan :=
      schemaTypePairsWriting.biUnion
        (fun p => chanBucket s5.type_to_channel p) ∪
      identities_mentioned.biUnion (fun i => chanBucket s5.id_to_channel i)
    let txnMsgs := (channelsTriggered.sort (· ≤ ·)).map
      (fun c => (c, SMsg.Transaction bc.1 bc.2 set_removes transaction_id))
    (s5, TxnRes.ok, incMsgs ++ txnMsgs)

/-- `_handleNewTransaction` (server.py:387-545).  Returns the post
state, the outcome, and the messages written to channels, in emission
order.  The state returned with `assertFailed` is the state after the
counter bump, since the increment precedes the assertion. -/
def handleNewTransaction (s0 : ServerState) (source : Option Chan)
    (key_value : List (DataKey × Option String))
    (set_adds0 set_removes0 : List (IndexKey × Finset String))
    (keys_to_check_versions : List DataKey)
    (indices_to_check_versions : List IndexKey)
    (as_of_version : Int) :
    ServerState × TxnRes × List (Chan × SMsg) :=
  let s1 : ServerState :=
    { s0 with cur_transaction_num := s0.cur_transaction_num + 1 }
  let transaction_id := s1.cur_transaction_num
  if ¬ (as_of_version < transaction_id) then (s1, TxnRes.assertFailed, [])
  else
    let set_adds := set_adds0.filter (fun p => p.2 ≠ ∅)
    let set_removes := set_removes0.filter (fun p => p.2 ≠ ∅)
    let expanded := expandedOf s1 source set_adds
    if conflictB expanded.1.version_numbers keys_to_check_versions
        indices_to_check_versions as_of_version then
      (expanded.1, TxnRes.failed, expanded.2)
    else
      let r := commitApply expanded.1 key_value set_adds set_removes
        transaction_id
      (r.1, r.2.1, expanded.2 ++ r.2.2)

/-- `_createConnectionEntry` (server.py:144-159), parametrised by the
fresh identity.  It commits a synthetic transaction with the server's
own counter as `as_of_version` and empty version-check lists. -/
def createConnectionEntry (s : ServerState) (ident : String) :
    ServerState × TxnRes × List (Chan × SMsg) :=
  handleNewTransaction s none
    [(connectionExistsKey ident, some "true")]
    [(connectionExistsIndex, ({ident} : Finset String))]
    [] [] [] s.cur_transaction_num

/-- `_dropConnectionEntry` (server.py:161-175). -/
def dropConnectionEntry (s : ServerState) (ident : String) :
    ServerState × TxnRes × List (Chan × SMsg) :=
  handleNewTransaction s none
    [(connectionExistsKey ident, none)]
    []
    [(connectionExistsIndex, ({ident} : Finset String))]
    [] [] s.cur_transaction_num

/-- `addConnection` (server.py:177-195), parametrised by the fresh
channel id and connection identity: create the connection entry, then
register a channel with empty subscription state and send it an
`Initialize` message.  The whole body sits in a `try`: if the synthetic
commit raises, the registration and the `Initialize` message never
happen (the blanket `except` just logs). -/
def addConnection (s : ServerState) (ch : Chan) (ident : String) :
    ServerState × List (Chan × SMsg) :=
  let r := createConnectionEntry s ident
  match r.2.1 with
  | TxnRes.ok =>
    let cs : ChannelState :=
      { connIdentity := ident
        definedSchemas := fun _ => none
        subscribedTypes := ∅
        subscribedIds := ∅
        subscribedIndexKeys := ∅ }
    ({ r.1 with clientChannels :=
        fun c => if c = ch then some cs else r.1.clientChannels c },
     r.2.2 ++ [(ch, SMsg.InitMsg r.1.cur_transaction_num ident)])
  | _ => (r.1, r.2.2)

/-- The fan-out scrub of `dropConnection` (server.py:123-140): discard
the channel from every bucket named by its subscription sets — deleting
emptied buckets of the index and identity maps, but only discarding in
the type map — and deregister the channel. -/
def scrubChannel (s : ServerState) (ch : Chan) (cs : ChannelState) :
    ServerState :=
  { s with
    clientChannels := fun c => if c = ch then none else s.clientChannels c
    type_to_channel := fun st =>
      if st ∈ cs.subscribedTypes then
        (s.type_to_channel st).map (fun b => b.erase ch)
      else s.type_to_channel st
    index_to_channel := fun ik =>
      if ik ∈ cs.subscribedIndexKeys then
        match s.index_to_channel ik with
        | some b => if b.erase ch = ∅ then none else some (b.erase ch)
        | none => none
      else s.index_to_channel ik
    id_to_channel := fun i =>
      if i ∈ cs.subscribedIds then
        match s.id_to_channel i with
        | some b => if b.erase ch = ∅ then none else some (b.erase ch)
        | none => none
      else s.id_to_channel i }

/-- `dropConnection` (server.py:115-142): scrub the channel from the
three fan-out maps, deregister it, and commit the synthetic drop
transaction. -/
def dropConnection (s : ServerState) (ch : Chan) :
    ServerState × List (Chan × SMsg) :=
  match s.clientChannels ch with
  | none => (s, [])
  | some cs =>
    let r := dropConnectionEntry (scrubChannel s ch cs) cs.connIdentity
    (r.1, r.2.2)

/-- `DefineSchema` handling (server.py:301-302). -/
def defineSchema (s : ServerState) (ch : Chan) (name : String)
    (defn : SchemaDef) : ServerState :=
  updateChannel s ch (fun cs =>
    { cs with definedSchemas :=
        fun n => if n = name then some defn else cs.definedSchemas n })

/-- The snapshot `values` gathered for one type (server.py:231-238):
every declared field of every matching identity. -/
def snapshotValues (kv : KVStore) (schema typename : String)
    (fields : List String) (identities : List String) :
    List (DataKey × Option String) :=
  fields.flatMap (fun f => identities.map (fun i =>
    ((⟨schema, typename, i, f⟩ : DataKey),
     kv.cells (DBKey.data ⟨schema, typename, i, f⟩))))

/-- The snapshot `sets` gathered for one type (server.py:240-248): every
populated bucket of every declared index, intersected with the matching
identities; empty intersections are dropped. -/
def snapshotSets (kv : KVStore) (schema typename : String)
    (indices : List String) (identities : Finset String) :
    List (IndexKey × Finset String) :=
  indices.flatMap (fun f =>
    (fsList (kv.sets (DBKey.group schema typename f))).filterMap (fun iv =>
      let ik : IndexKey := ⟨schema, typename, f, iv⟩
      let inter := kv.sets (DBKey.index ik) ∩ identities
      if inter = ∅ then none else some (ik, inter)))

/-- One iteration of the per-type subscription loop
(server.py:216-270): compute the matching identities, gather the
snapshot, and update the fan-out maps. -/
def subscribeOneType (s : ServerState) (ch : Chan) (msg : SubMsg)
    (typename : String) (td : TypeDef) :
    ServerState × List (DataKey × Option String) ×
      List (IndexKey × Finset String) × Finset String :=
  let fv : String × String :=
    match msg.fieldname_and_value with
    | none => (" exists", trueHash)
    | some p => p
  let identities : Finset String :=
    if fv.1 = "_identity" then {fv.2}
    else s.kvstore.sets
      (DBKey.index ⟨msg.schema, typename, fv.1, fv.2⟩)
  let kvs := snapshotValues s.kvstore msg.schema typename td.fields
    (fsList identities)
  let sets := snapshotSets s.kvstore msg.schema typename td.indices identities
  let s2 :=
    match msg.fieldname_and_value with
    | some p =>
      let sA := enrollIds s ch identities
      if p.1 ≠ "_identity" then
        enrollIndexKey sA ch ⟨msg.schema, typename, p.1, p.2⟩
      else sA
    | none => enrollType s ch (msg.schema, typename)
  (s2, kvs, sets, identities)

/-- The loop of `_handleSubscription` over the types being subscribed,
accumulating the snapshot `values` and `sets` across types. -/
def subLoop (ch : Chan) (msg : SubMsg)
    (acc : ServerState × List (DataKey × Option String) ×
      List (IndexKey × Finset String) × Finset String)
    (l : SchemaDef) :
    ServerState × List (DataKey × Option String) ×
      List (IndexKey × Finset String) × Finset String :=
  match l with
  | [] => acc
  | p :: rest =>
    let r1 := subscribeOneType acc.1 ch msg p.1 p.2
    subLoop ch msg
      (r1.1, acc.2.1 ++ r1.2.1, acc.2.2.1 ++ r1.2.2.1, r1.2.2.2) rest

/-- `_handleSubscription` (server.py:197-292).  `Except.error` stands
for a failed server-side assertion; every assertion in the handler fires
before any state change. -/
def handleSubscription (s : ServerState) (ch : Chan) (msg : SubMsg) :
    Except String (ServerState × List (Chan × SMsg)) :=
  match s.clientChannels ch with
  | none => Except.error "unknown channel"
  | some cs =>
    match cs.definedSchemas msg.schema with
    | none => Except.error "cannot subscribe to an unknown schema"
    | some defn =>
      match msg.typename with
      | none =>
        if msg.fieldname_and_value.isSome then
          Except.error "cannot subscribe to a fieldname and value without a type"
        else
          let r := subLoop ch msg
            (s, ([] : List (DataKey × Option String)),
             ([] : List (IndexKey × Finset String)), (∅ : Finset String))
            defn
          Except.ok (r.1,
            [(ch, SMsg.Subscription msg.schema none none r.2.1 r.2.2.1
                s.cur_transaction_num none)])
      | some t =>
        match alookup t defn with
        | none => Except.error "cannot subscribe to a type not in the schema"
        | some td =>
          let r := subscribeOneType s ch msg t td
          Except.ok (r.1,
            [(ch, SMsg.Subscription msg.schema (some t)
                msg.fieldname_and_value r.2.1 r.2.2.1
                s.cur_transaction_num
                (match msg.fieldname_and_value with
                 | none => none
                 | some _ => some r.2.2.2))])

/-- The subscription step as seen by the step relation: an assertion
failure leaves the state unchanged (the channel would be closed by the
transport, which is a separate `dropConnection` step). -/
def doSubscribe (s : ServerState) (ch : Chan) (msg : SubMsg) :
    ServerState × List (Chan × SMsg) :=
  match handleSubscription s ch msg with
  | Except.ok r => r
  | Except.error _ => (s, [])

/-- `_removeOldDeadConnections` (server.py:93-102). -/
def removeOldDeadConnections (kv : KVStore) : KVStore :=
  let oldIds := kv.sets (DBKey.index connectionExistsIndex)
  if oldIds = ∅ then kv
  else
    (kv.setSeveral
      ((fsList oldIds).map (fun i => (DBKey.data (connectionExistsKey i), none)))
      [] [(DBKey.index connectionExistsIndex, oldIds)]).1

/-- `Server.__init__` (server.py:61-91) over an arbitrary initial KV
store. -/
def initState (kv : KVStore) : ServerState :=
  { clientChannels := fun _ => none
    cur_transaction_num := 0
    version_numbers := fun _ => none
    type_to_channel := fun _ => none
    index_to_channel := fun _ => none
    id_to_channel := fun _ => none
    kvstore := removeOldDeadConnections kv }

/-- The server states reachable from startup by the operations the
dispatcher exposes: connect, define-schema, subscribe, client commit,
and drop-connection. -/
inductive Reachable : ServerState → Prop where
  | init (kv : KVStore) : Reachable (initState kv)
  | connect {s : ServerState} (ch : Chan) (ident : String)
      (h : Reachable s) (hfresh : s.clientChannels ch = none) :
      Reachable (addConnection s ch ident).1
  | defSchema {s : ServerState} (ch : Chan) (name : String)
      (defn : SchemaDef) (h : Reachable s) :
      Reachable (defineSchema s ch name defn)
  | subscribe {s : ServerState} (ch : Chan) (msg : SubMsg)
      (h : Reachable s) : Reachable (doSubscribe s ch msg).1
  | commit {s : ServerState} (ch : Chan)
      (key_value : List (DataKey × Option String))
      (set_adds set_removes : List (IndexKey × Finset String))
      (kc : List DataKey) (ic : List IndexKey) (aov : Int)
      (h : Reachable s) (hch : (s.clientChannels ch).isSome) :
      Reachable (handleNewTransaction s (some ch) key_value set_adds
        set_removes kc ic aov).1
  | drop {s : ServerState} (ch : Chan) (h : Reachable s) :
      Reachable (dropConnection s ch).1

/-- The mutual-inverse property between the per-channel subscription
sets and the three fan-out maps, together with the fact that fan-out
buckets only hold registered channels. -/
def Inverse (s : ServerState) : Prop :=
  (∀ ch cs, s.clientChannels ch = some cs →
    (∀ st, st ∈ cs.subscribedTypes ↔ ch ∈ chanBucket s.type_to_channel st) ∧
    (∀ ik, ik ∈ cs.subscribedIndexKeys ↔
      ch ∈ chanBucket s.index_to_channel ik) ∧
    (∀ i, i ∈ cs.subscribedIds ↔ ch ∈ chanBucket s.id_to_channel i)) ∧
  (∀ st ch, ch ∈ chanBucket s.type_to_channel st →
    (s.clientChannels ch).isSome) ∧
  (∀ ik ch, ch ∈ chanBucket s.index_to_channel ik →
    (s.clientChannels ch).isSome) ∧
  (∀ i ch, ch ∈ chanBucket s.id_to_channel i →
    (s.clientChannels ch).isSome)

/-- No bucket of the index-key fan-out map or of the identity fan-out
map is present but empty. -/
def NoEmptyIdxIdBuckets (s : ServerState) : Prop :=
  (∀ ik, s.index_to_channel ik ≠ some ∅) ∧
  (∀ i, s.id_to_channel i ≠ some ∅)

/-- Every recorded version number is bounded by the transaction
counter. -/
def VersionsBounded (s : ServerState) : Prop :=
  ∀ k v, s.version_numbers k = some v → v ≤ s.cur_transaction_num

/-- State `t` has the same registered channels as state `s`, with each
channel's state unchanged except that its `subscribedIds` may have
grown (the only per-channel mutation the commit path performs). -/
def SameButMoreIds (s t : ServerState) : Prop :=
  ∀ c, (s.clientChannels c = none ∧ t.clientChannels c = none) ∨
    (∃ cs cs', s.clientChannels c = some cs ∧ t.clientChannels c = some cs' ∧
      cs'.connIdentity = cs.connIdentity ∧
      cs'.definedSchemas = cs.definedSchemas ∧
      cs'.subscribedTypes = cs.subscribedTypes ∧
      cs'.subscribedIndexKeys = cs.subscribedIndexKeys ∧
      cs.subscribedIds ⊆ cs'.subscribedIds)

/-- The five server-state fields the pre-conflict-check phase of a
commit leaves untouched. -/
def CoreUnchanged (s t : ServerState) : Prop :=
  t.cur_transaction_num = s.cur_transaction_num ∧
  t.version_numbers = s.version_numbers ∧
  t.kvstore = s.kvstore ∧
  t.type_to_channel = s.type_to_channel ∧
  t.index_to_channel = s.index_to_channel

/-- A message is a `SubscriptionIncrease` addressed to channel `ch`. -/
def IsIncreaseTo (ch : Chan) (m : Chan × SMsg) : Prop :=
  m.1 = ch ∧ ∃ sch ty fv ids, m.2 = SMsg.SubscriptionIncrease sch ty fv ids

/-- An empty KV store, for concrete runs. -/
def kvEmpty : KVStore := ⟨fun _ => none, fun _ => ∅⟩

/-- Concrete run: freshly started server. -/
def exInit : ServerState := initState kvEmpty

/-- Concrete run: channel 0 connected with identity `c0`
(transaction 1). -/
def exConn : ServerState := (addConnection exInit 0 "c0").1

/-- Concrete run: a data key written by the example transaction. -/
def exKey : DataKey := ⟨"S", "T", "id1", "name"⟩

/-- Concrete run: the `" exists"` index of type `T`. -/
def exExistsT : IndexKey := ⟨"S", "T", " exists", trueHash⟩

/-- Concrete run: the `" exists"` index of type `V`. -/
def exExistsV : IndexKey := ⟨"S", "V", " exists", trueHash⟩

/-- Concrete run: definition of type `T`. -/
def exTdT : TypeDef := ⟨["name"], [" exists"]⟩

/-- Concrete run: definition of type `U`. -/
def exTdU : TypeDef := ⟨["g"], []⟩

/-- Concrete run: a two-type schema definition. -/
def exDefn : SchemaDef := [("T", exTdT), ("U", exTdU)]

/-- Concrete run: channel 0 has defined schema `S`. -/
def exSchema : ServerState := defineSchema exConn 0 "S" exDefn

/-- Concrete run: channel 0 commits a write creating `id1`
(transaction 2). -/
def exWrite : ServerState × TxnRes × List (Chan × SMsg) :=
  handleNewTransaction exSchema (some 0)
    [(exKey, some "alice")] [(exExistsT, ({"id1"} : Finset String))]
    [] [] [] 1

/-- Concrete run: channel 0 then submits a stale transaction
(`as_of_version = 1` although `exKey` was mutated at transaction 2)
which also creates `id9` in type `V`. -/
def exConflict : ServerState × TxnRes × List (Chan × SMsg) :=
  handleNewTransaction exWrite.1 (some 0)
    [] [(exExistsV, ({"id9"} : Finset String))] [] [exKey] [] 1

/-- Concrete run: the state of channel 0 after connect and
define-schema. -/
def exCs : ChannelState :=
  { connIdentity := "c0"
    definedSchemas := fun n => if n = "S" then some exDefn else none
    subscribedTypes := ∅
    subscribedIds := ∅
    subscribedIndexKeys := ∅ }

/-- Concrete run: channel 0 subscribes to the whole schema `S`. -/
def exSubAll : ServerState × List (Chan × SMsg) :=
  doSubscribe exSchema 0 ⟨"S", none, none⟩

/-- Concrete run: channel 0 subscribes to the whole type `T`. -/
def exSubT : ServerState × List (Chan × SMsg) :=
  doSubscribe exSchema 0 ⟨"S", some "T", none⟩

/-- Concrete run: channel 0 is then dropped. -/
def exDropped : ServerState := (dropConnection exSubT.1 0).1

/-- Concrete run: a client-side definition of the core schema that
names the `Connection` type. -/
def exCoreDefn : SchemaDef := [("Connection", ⟨[" exists"], []⟩)]

/-- Concrete run: channel 0 defines the core schema, then
slice-subscribes to the `core.Connection " exists"` index — the very
index key every connection-lifecycle transaction adds to. -/
def exSub9 : ServerState × List (Chan × SMsg) :=
  doSubscribe (defineSchema exConn 0 "core" exCoreDefn) 0
    ⟨"core", some "Connection", some (" exists", trueHash)⟩

/-- Concrete run: channel 0 then redefines its core schema to an empty
definition, so `definedSchemas["core"]` no longer has the
`Connection` typename. -/
def exRedef9 : ServerState := defineSchema exSub9.1 0 "core" []

theorem accumFold_pres {α σ μ : Type} {g : σ → α → σ × List μ} {P : σ → Prop}
    (hg : ∀ t a, P t → P (g t a).1) (init : σ) (l : List α) (h : P init) :
    P (accumFold g init l).1 := by
  suffices H : ∀ acc : σ × List μ, P acc.1 →
      P (l.foldl (fun acc p => let r := g acc.1 p; (r.1, acc.2 ++ r.2)) acc).1 by
    exact H (init, []) h
  induction l with
  | nil => intro acc hacc; exact hacc
  | cons a rest ih => intro acc hacc; exact ih _ (hg _ _ hacc)

theorem accumFold_msgs {α σ μ : Type} {g : σ → α → σ × List μ} {Q : μ → Prop}
    (hg : ∀ t a m, m ∈ (g t a).2 → Q m) (init : σ) (l : List α) :
    ∀ m ∈ (accumFold g init l).2, Q m := by
  suffices H : ∀ acc : σ × List μ, (∀ m ∈ acc.2, Q m) →
      ∀ m ∈ (l.foldl (fun acc p =>
        let r := g acc.1 p; (r.1, acc.2 ++ r.2)) acc).2, Q m by
    exact H (init, []) (by intro m hm; cases hm)
  induction l with
  | nil => intro acc hacc; exact hacc
  | cons a rest ih =>
    intro acc hacc
    refine ih _ ?_
    intro m hm
    rcases List.mem_append.mp hm with h1 | h2
    · exact hacc m h1
    · exact hg _ _ m h2

theorem accumFold2_pres {α σ μ β : Type} {g : σ → α → β → σ × List μ × β}
    {P : σ → Prop} (hg : ∀ t a b, P t → P (g t a b).1) (init : σ) (b0 : β)
    (l : List α) (h : P init) : P (accumFold2 g init b0 l).1 := by
  suffices H : ∀ acc : σ × List μ × β, P acc.1 →
      P (l.foldl (fun acc p => let r := g acc.1 p acc.2.2;
        (r.1, acc.2.1 ++ r.2.1, r.2.2)) acc).1 by
    exact H (init, [], b0) h
  induction l with
  | nil => intro acc hacc; exact hacc
  | cons a rest ih => intro acc hacc; exact ih _ (hg _ _ _ hacc)

theorem accumFold2E_pres {α σ μ β : Type}
    {g : σ → α → β → σ × List μ × Option β} {P : σ → Prop}
    (hg : ∀ u a b, P u → P (g u a b).1) :
    ∀ (l : List α) (init : σ) (b0 : β), P init →
      P (accumFold2E g l init b0).1 := by
  intro l
  induction l with
  | nil => intro init b0 h; exact h
  | cons a rest ih =>
    intro init b0 h
    simp only [accumFold2E]
    cases hr : (g init a b0).2.2 with
    | none =>
      simp only [hr]
      exact hg _ _ _ h
    | some b2 =>
      simp only [hr]
      exact ih _ _ (hg _ _ _ h)

theorem accumFold2_msgs {α σ μ β : Type} {g : σ → α → β → σ × List μ × β}
    {Q : μ → Prop} (hg : ∀ t a b m, m ∈ (g t a b).2.1 → Q m) (init : σ)
    (b0 : β) (l : List α) : ∀ m ∈ (accumFold2 g init b0 l).2.1, Q m := by
  suffices H : ∀ acc : σ × List μ × β, (∀ m ∈ acc.2.1, Q m) →
      ∀ m ∈ (l.foldl (fun acc p => let r := g acc.1 p acc.2.2;
        (r.1, acc.2.1 ++ r.2.1, r.2.2)) acc).2.1, Q m by
    exact H (init, [], b0) (by intro m hm; cases hm)
  induction l with
  | nil => intro acc hacc; exact hacc
  | cons a rest ih =>
    intro acc hacc
    refine ih _ ?_
    intro m hm
    rcases List.mem_append.mp hm with h1 | h2
    · exact hacc m h1
    · exact hg _ _ _ m h2

@[simp] theorem updateChannel_cur (s : ServerState) (ch : Chan)
    (f : ChannelState → ChannelState) :
    (updateChannel s ch f).cur_transaction_num = s.cur_transaction_num := rfl

@[simp] theorem updateChannel_versions (s : ServerState) (ch : Chan)
    (f : ChannelState → ChannelState) :
    (updateChannel s ch f).version_numbers = s.version_numbers := rfl

@[simp] theorem updateChannel_kv (s : ServerState) (ch : Chan)
    (f : ChannelState → ChannelState) :
    (updateChannel s ch f).kvstore = s.kvstore := rfl

@[simp] theorem updateChannel_clientChannels (s : ServerState) (ch : Chan)
    (f : ChannelState → ChannelState) (c : Chan) :
    (updateChannel s ch f).clientChannels c =
      if c = ch then (s.clientChannels c).map f else s.clientChannels c := rfl

@[simp] theorem enrollIds_cur (s : ServerState) (ch : Chan)
    (ids : Finset String) :
    (enrollIds s ch ids).cur_transaction_num = s.cur_transaction_num := rfl

@[simp] theorem enrollIds_versions (s : ServerState) (ch : Chan)
    (ids : Finset String) :
    (enrollIds s ch ids).version_numbers = s.version_numbers := rfl

@[simp] theorem enrollIds_kv (s : ServerState) (ch : Chan)
    (ids : Finset String) : (enrollIds s ch ids).kvstore = s.kvstore := rfl

@[simp] theorem enrollIds_t2c (s : ServerState) (ch : Chan)
    (ids : Finset String) :
    (enrollIds s ch ids).type_to_channel = s.type_to_channel := rfl

@[simp] theorem enrollIds_i2c (s : ServerState) (ch : Chan)
    (ids : Finset String) :
    (enrollIds s ch ids).index_to_channel = s.index_to_channel := rfl

@[simp] theorem enrollIds_id2c (s : ServerState) (ch : Chan)
    (ids : Finset String) :
    (enrollIds s ch ids).id_to_channel =
      bucketAddMany s.id_to_channel ids ch := rfl

@[simp] theorem enrollIds_clientChannels (s : ServerState) (ch : Chan)
    (ids : Finset String) (c : Chan) :
    (enrollIds s ch ids).clientChannels c =
      if c = ch then (s.clientChannels c).map
        (fun cs => { cs with subscribedIds := cs.subscribedIds ∪ ids })
      else s.clientChannels c := rfl

@[simp] theorem enrollIndexKey_cur (s : ServerState) (ch : Chan)
    (ik : IndexKey) :
    (enrollIndexKey s ch ik).cur_transaction_num = s.cur_transaction_num := rfl

@[simp] theorem enrollIndexKey_versions (s : ServerState) (ch : Chan)
    (ik : IndexKey) :
    (enrollIndexKey s ch ik).version_numbers = s.version_numbers := rfl

@[simp] theorem enrollIndexKey_kv (s : ServerState) (ch : Chan)
    (ik : IndexKey) : (enrollIndexKey s ch ik).kvstore = s.kvstore := rfl

@[simp] theorem enrollIndexKey_t2c (s : ServerState) (ch : Chan)
    (ik : IndexKey) :
    (enrollIndexKey s ch ik).type_to_channel = s.type_to_channel := rfl

@[simp] theorem enrollIndexKey_i2c (s : ServerState) (ch : Chan)
    (ik : IndexKey) :
    (enrollIndexKey s ch ik).index_to_channel =
      bucketAddMany s.index_to_channel {ik} ch := rfl

@[simp] theorem enrollIndexKey_id2c (s : ServerState) (ch : Chan)
    (ik : IndexKey) :
    (enrollIndexKey s ch ik).id_to_channel = s.id_to_channel := rfl

@[simp] theorem enrollIndexKey_clientChannels (s : ServerState) (ch : Chan)
    (ik : IndexKey) (c : Chan) :
    (enrollIndexKey s ch ik).clientChannels c =
      if c = ch then (s.clientChannels c).map
        (fun cs =>
          { cs with subscribedIndexKeys := cs.subscribedIndexKeys ∪ {ik} })
      else s.clientChannels c := rfl

@[simp] theorem enrollType_cur (s : ServerState) (ch : Chan)
    (st : String × String) :
    (enrollType s ch st).cur_transaction_num = s.cur_transaction_num := rfl

@[simp] theorem enrollType_versions (s : ServerState) (ch : Chan)
    (st : String × String) :
    (enrollType s ch st).version_numbers = s.version_numbers := rfl

@[simp] theorem enrollType_kv (s : ServerState) (ch : Chan)
    (st : String × String) : (enrollType s ch st).kvstore = s.kvstore := rfl

@[simp] theorem enrollType_t2c (s : ServerState) (ch : Chan)
    (st : String × String) :
    (enrollType s ch st).type_to_channel =
      bucketAddMany s.type_to_channel {st} ch := rfl

@[simp] theorem enrollType_i2c (s : ServerState) (ch : Chan)
    (st : String × String) :
    (enrollType s ch st).index_to_channel = s.index_to_channel := rfl

@[simp] theorem enrollType_id2c (s : ServerState) (ch : Chan)
    (st : String × String) :
    (enrollType s ch st).id_to_channel = s.id_to_channel := rfl

@[simp] theorem enrollType_clientChannels (s : ServerState) (ch : Chan)
    (st : String × String) (c : Chan) :
    (enrollType s ch st).clientChannels c =
      if c = ch then (s.clientChannels c).map
        (fun cs => { cs with subscribedTypes := cs.subscribedTypes ∪ {st} })
      else s.clientChannels c := rfl

theorem coreUnchanged_refl (s : ServerState) : CoreUnchanged s s :=
  ⟨rfl, rfl, rfl, rfl, rfl⟩

theorem coreUnchanged_trans {s t u : ServerState} (h1 : CoreUnchanged s t)
    (h2 : CoreUnchanged t u) : CoreUnchanged s u :=
  ⟨h2.1.trans h1.1, h2.2.1.trans h1.2.1, h2.2.2.1.trans h1.2.2.1,
   h2.2.2.2.1.trans h1.2.2.2.1, h2.2.2.2.2.trans h1.2.2.2.2⟩

theorem sameButMoreIds_refl (s : ServerState) : SameButMoreIds s s := by
  intro c
  cases h : s.clientChannels c with
  | none => exact Or.inl ⟨rfl, rfl⟩
  | some cs =>
    exact Or.inr ⟨cs, cs, rfl, rfl, rfl, rfl, rfl, rfl, le_refl _⟩

theorem sameButMoreIds_trans {s t u : ServerState} (h1 : SameButMoreIds s t)
    (h2 : SameButMoreIds t u) : SameButMoreIds s u := by
  intro c
  rcases h1 c with ⟨hs, ht⟩ | ⟨cs, cs', hs, ht, he1, he2, he3, he4, he5⟩
  · rcases h2 c with ⟨_, hu⟩ | ⟨ds, _, hds, _⟩
    · exact Or.inl ⟨hs, hu⟩
    · rw [ht] at hds; cases hds
  · rcases h2 c with ⟨hts, _⟩ | ⟨ds, ds', hds, hu, hf1, hf2, hf3, hf4, hf5⟩
    · rw [ht] at hts; cases hts
    · rw [ht] at hds
      injection hds with hds
      subst hds
      exact Or.inr ⟨cs, ds', hs, hu, hf1.trans he1, hf2.trans he2,
        hf3.trans he3, hf4.trans he4, he5.trans hf5⟩

theorem enrollIds_sameButMoreIds (s : ServerState) (ch : Chan)
    (ids : Finset String) : SameButMoreIds s (enrollIds s ch ids) := by
  intro c
  by_cases hc : c = ch
  · subst hc
    cases h : s.clientChannels c with
    | none => exact Or.inl ⟨rfl, by simp [h]⟩
    | some cs =>
      refine Or.inr ⟨cs, { cs with subscribedIds := cs.subscribedIds ∪ ids },
        rfl, ?_, rfl, rfl, rfl, rfl, Finset.subset_union_left⟩
      simp [h]
  · cases h : s.clientChannels c with
    | none => exact Or.inl ⟨rfl, by simp [h, hc]⟩
    | some cs =>
      exact Or.inr ⟨cs, cs, rfl, by simp [h, hc], rfl, rfl, rfl, rfl,
        le_refl _⟩

theorem writerExpandEntry_core (s : ServerState) (ch : Chan)
    (p : IndexKey × Finset String) :
    CoreUnchanged s (writerExpandEntry s ch p).1 := by
  unfold writerExpandEntry
  repeat' split
  all_goals exact ⟨rfl, rfl, rfl, rfl, rfl⟩

theorem writerExpandEntry_sameButMoreIds (s : ServerState) (ch : Chan)
    (p : IndexKey × Finset String) :
    SameButMoreIds s (writerExpandEntry s ch p).1 := by
  unfold writerExpandEntry
  repeat' split
  all_goals first
    | exact sameButMoreIds_refl s
    | exact enrollIds_sameButMoreIds s ch p.2

theorem writerExpandEntry_msgs (s : ServerState) (ch : Chan)
    (p : IndexKey × Finset String) :
    ∀ m ∈ (writerExpandEntry s ch p).2, IsIncreaseTo ch m := by
  unfold writerExpandEntry
  repeat' split
  all_goals intro m hm
  all_goals cases hm
  all_goals try exact ⟨rfl, _, _, _, _, rfl⟩
  all_goals rename_i hm2
  all_goals cases hm2

theorem writerExpansion_core (s : ServerState) (ch : Chan)
    (sa : List (IndexKey × Finset String)) :
    CoreUnchanged s (writerExpansion s ch sa).1 := by
  refine accumFold_pres (P := fun t => CoreUnchanged s t) ?_ s sa
    (coreUnchanged_refl s)
  intro t a h
  exact coreUnchanged_trans h (writerExpandEntry_core t ch a)

theorem writerExpansion_sameButMoreIds (s : ServerState) (ch : Chan)
    (sa : List (IndexKey × Finset String)) :
    SameButMoreIds s (writerExpansion s ch sa).1 := by
  refine accumFold_pres (P := fun t => SameButMoreIds s t) ?_ s sa
    (sameButMoreIds_refl s)
  intro t a h
  exact sameButMoreIds_trans h (writerExpandEntry_sameButMoreIds t ch a)

theorem writerExpansion_msgs (s : ServerState) (ch : Chan)
    (sa : List (IndexKey × Finset String)) :
    ∀ m ∈ (writerExpansion s ch sa).2, IsIncreaseTo ch m :=
  accumFold_msgs (fun t a m hm => writerExpandEntry_msgs t ch a m hm) s sa

theorem expandedOf_core (s : ServerState) (source : Option Chan)
    (sa : List (IndexKey × Finset String)) :
    CoreUnchanged s (expandedOf s source sa).1 := by
  cases source with
  | none => exact coreUnchanged_refl s
  | some ch => exact writerExpansion_core s ch sa

theorem expandedOf_sameButMoreIds (s : ServerState) (source : Option Chan)
    (sa : List (IndexKey × Finset String)) :
    SameButMoreIds s (expandedOf s source sa).1 := by
  cases source with
  | none => exact sameButMoreIds_refl s
  | some ch => exact writerExpansion_sameButMoreIds s ch sa

theorem expandedOf_msgs (s : ServerState) (source : Option Chan)
    (sa : List (IndexKey × Finset String)) :
    ∀ m ∈ (expandedOf s source sa).2,
      ∃ ch, source = some ch ∧ IsIncreaseTo ch m := by
  cases source with
  | none => intro m hm; cases hm
  | some ch =>
    intro m hm
    exact ⟨ch, rfl, writerExpansion_msgs s ch sa m hm⟩

theorem handleNewTransaction_eq_assert (s0 : ServerState)
    (source : Option Chan) (key_value : List (DataKey × Option String))
    (sa0 sr0 : List (IndexKey × Finset String)) (kc : List DataKey)
    (ic : List IndexKey) (aov : Int)
    (h : ¬ aov < s0.cur_transaction_num + 1) :
    handleNewTransaction s0 source key_value sa0 sr0 kc ic aov =
      ({ s0 with cur_transaction_num := s0.cur_transaction_num + 1 },
       TxnRes.assertFailed, []) := by
  unfold handleNewTransaction
  simp only [if_pos h]

theorem handleNewTransaction_eq_failed (s0 : ServerState)
    (source : Option Chan) (key_value : List (DataKey × Option String))
    (sa0 sr0 : List (IndexKey × Finset String)) (kc : List DataKey)
    (ic : List IndexKey) (aov : Int)
    (h : aov < s0.cur_transaction_num + 1)
    (hc : conflictB
      (expandedOf { s0 with cur_transaction_num := s0.cur_transaction_num + 1 }
        source (sa0.filter (fun p => p.2 ≠ ∅))).1.version_numbers
      kc ic aov = true) :
    handleNewTransaction s0 source key_value sa0 sr0 kc ic aov =
      ((expandedOf
          { s0 with cur_transaction_num := s0.cur_transaction_num + 1 }
          source (sa0.filter (fun p => p.2 ≠ ∅))).1,
       TxnRes.failed,
       (expandedOf
          { s0 with cur_transaction_num := s0.cur_transaction_num + 1 }
          source (sa0.filter (fun p => p.2 ≠ ∅))).2) := by
  unfold handleNewTransaction
  simp only [if_neg (not_not_intro h), if_pos hc]

theorem handleNewTransaction_eq_commit (s0 : ServerState)
    (source : Option Chan) (key_value : List (DataKey × Option String))
    (sa0 sr0 : List (IndexKey × Finset String)) (kc : List DataKey)
    (ic : List IndexKey) (aov : Int)
    (h : aov < s0.cur_transaction_num + 1)
    (hc : conflictB
      (expandedOf { s0 with cur_transaction_num := s0.cur_transaction_num + 1 }
        source (sa0.filter (fun p => p.2 ≠ ∅))).1.version_numbers
      kc ic aov = false) :
    handleNewTransaction s0 source key_value sa0 sr0 kc ic aov =
      ((commitApply
          (expandedOf
            { s0 with cur_transaction_num := s0.cur_transaction_num + 1 }
            source (sa0.filter (fun p => p.2 ≠ ∅))).1
          key_value (sa0.filter (fun p => p.2 ≠ ∅))
          (sr0.filter (fun p => p.2 ≠ ∅))
          (s0.cur_transaction_num + 1)).1,
       (commitApply
          (expandedOf
            { s0 with cur_transaction_num := s0.cur_transaction_num + 1 }
            source (sa0.filter (fun p => p.2 ≠ ∅))).1
          key_value (sa0.filter (fun p => p.2 ≠ ∅))
          (sr0.filter (fun p => p.2 ≠ ∅))
          (s0.cur_transaction_num + 1)).2.1,
       (expandedOf
          { s0 with cur_transaction_num := s0.cur_transaction_num + 1 }
          source (sa0.filter (fun p => p.2 ≠ ∅))).2 ++
       (commitApply
          (expandedOf
            { s0 with cur_transaction_num := s0.cur_transaction_num + 1 }
            source (sa0.filter (fun p => p.2 ≠ ∅))).1
          key_value (sa0.filter (fun p => p.2 ≠ ∅))
          (sr0.filter (fun p => p.2 ≠ ∅))
          (s0.cur_transaction_num + 1)).2.2) := by
  unfold handleNewTransaction
  simp only [if_neg (not_not_intro h), hc, Bool.false_eq_true, if_false]

theorem indexExpandChan_core (s : ServerState) (ik : IndexKey)
    (adds : Finset String) (ch : Chan) :
    CoreUnchanged s (indexExpandChan s ik adds ch).1 := by
  unfold indexExpandChan
  repeat' split
  all_goals exact ⟨rfl, rfl, rfl, rfl, rfl⟩

theorem indexExpandChan_sameButMoreIds (s : ServerState) (ik : IndexKey)
    (adds : Finset String) (ch : Chan) :
    SameButMoreIds s (indexExpandChan s ik adds ch).1 := by
  unfold indexExpandChan
  split
  · exact sameButMoreIds_refl s
  · exact enrollIds_sameButMoreIds s ch _

theorem indexExpandEntry_core (s : ServerState) (p : IndexKey × Finset String)
    (bc : List (DataKey × Option String) × List (IndexKey × Finset String)) :
    CoreUnchanged s (indexExpandEntry s p bc).1 := by
  unfold indexExpandEntry
  split
  · exact coreUnchanged_refl s
  · refine accumFold2_pres (P := fun u => CoreUnchanged s u) ?_ s ∅ _
      (coreUnchanged_refl s)
    intro t a b h
    exact coreUnchanged_trans h (indexExpandChan_core t p.1 p.2 a)

theorem indexExpandEntry_sameButMoreIds (s : ServerState)
    (p : IndexKey × Finset String)
    (bc : List (DataKey × Option String) × List (IndexKey × Finset String)) :
    SameButMoreIds s (indexExpandEntry s p bc).1 := by
  unfold indexExpandEntry
  split
  · exact sameButMoreIds_refl s
  · refine accumFold2_pres (P := fun u => SameButMoreIds s u) ?_ s ∅ _
      (sameButMoreIds_refl s)
    intro t a b h
    exact sameButMoreIds_trans h (indexExpandChan_sameButMoreIds t p.1 p.2 a)

theorem commitApply_cur (s2 : ServerState)
    (key_value : List (DataKey × Option String))
    (sa sr : List (IndexKey × Finset String)) (t : Int) :
    (commitApply s2 key_value sa sr t).1.cur_transaction_num =
      s2.cur_transaction_num := by
  simp only [commitApply]
  split
  all_goals
    refine accumFold2E_pres
      (P := fun u => u.cur_transaction_num = s2.cur_transaction_num)
      (fun u a b h => ((indexExpandEntry_core u a b).1).trans h) _ _ _ ?_
  all_goals rfl

theorem commitApply_t2c (s2 : ServerState)
    (key_value : List (DataKey × Option String))
    (sa sr : List (IndexKey × Finset String)) (t : Int) :
    (commitApply s2 key_value sa sr t).1.type_to_channel =
      s2.type_to_channel := by
  simp only [commitApply]
  split
  all_goals
    refine accumFold2E_pres
      (P := fun u => u.type_to_channel = s2.type_to_channel)
      (fun u a b h => ((indexExpandEntry_core u a b).2.2.2.1).trans h) _ _ _ ?_
  all_goals rfl

theorem commitApply_i2c (s2 : ServerState)
    (key_value : List (DataKey × Option String))
    (sa sr : List (IndexKey × Finset String)) (t : Int) :
    (commitApply s2 key_value sa sr t).1.index_to_channel =
      s2.index_to_channel := by
  simp only [commitApply]
  split
  all_goals
    refine accumFold2E_pres
      (P := fun u => u.index_to_channel = s2.index_to_channel)
      (fun u a b h => ((indexExpandEntry_core u a b).2.2.2.2).trans h) _ _ _ ?_
  all_goals rfl

theorem commitApply_versions (s2 : ServerState)
    (key_value : List (DataKey × Option String))
    (sa sr : List (IndexKey × Finset String)) (t : Int) :
    (commitApply s2 key_value sa sr t).1.version_numbers = fun k =>
      if k ∈ (key_value.map Prod.fst).map DBKey.data ++
           ((sa ++ sr).map Prod.fst).map DBKey.index
      then some t else s2.version_numbers k := by
  simp only [commitApply]
  split
  all_goals
    refine accumFold2E_pres
      (P := fun u => u.version_numbers = fun k =>
        if k ∈ (key_value.map Prod.fst).map DBKey.data ++
             ((sa ++ sr).map Prod.fst).map DBKey.index
        then some t else s2.version_numbers k)
      (fun u a b h => ((indexExpandEntry_core u a b).2.1).trans h) _ _ _ ?_
  all_goals rfl

theorem commitApply_sameButMoreIds (s2 : ServerState)
    (key_value : List (DataKey × Option String))
    (sa sr : List (IndexKey × Finset String)) (t : Int) :
    SameButMoreIds s2 (commitApply s2 key_value sa sr t).1 := by
  simp only [commitApply]
  split
  all_goals
    refine accumFold2E_pres (P := fun u => SameButMoreIds s2 u) ?_ _ _ _
      (sameButMoreIds_refl s2)
  all_goals
    intro u a b h
    exact sameButMoreIds_trans h (indexExpandEntry_sameButMoreIds u a b)

theorem commitApply_ne_failed (s2 : ServerState)
    (key_value : List (DataKey × Option String))
    (sa sr : List (IndexKey × Finset String)) (t : Int) :
    (commitApply s2 key_value sa sr t).2.1 ≠ TxnRes.failed ∧
    (commitApply s2 key_value sa sr t).2.1 ≠ TxnRes.assertFailed := by
  simp only [commitApply]
  split <;> exact ⟨by simp, by simp⟩

theorem conflictB_nil (vn : DBKey → Option Int) (aov : Int) :
    conflictB vn [] [] aov = false := rfl

theorem conflictB_iff_exists (vn : DBKey → Option Int) (kc : List DataKey)
    (ic : List IndexKey) (aov : Int) :
    conflictB vn kc ic aov = true ↔
      (∃ k ∈ kc, aov < recordedVersion vn (DBKey.data k)) ∨
      (∃ k ∈ ic, aov < recordedVersion vn (DBKey.index k)) := by
  unfold conflictB
  rw [List.any_eq_true]
  constructor
  · rintro ⟨x, hx, hpx⟩
    have hlt : aov < recordedVersion vn x := of_decide_eq_true hpx
    rcases List.mem_append.mp hx with h1 | h1
    · rcases List.mem_map.mp h1 with ⟨d, hd, rfl⟩
      exact Or.inl ⟨d, hd, hlt⟩
    · rcases List.mem_map.mp h1 with ⟨d, hd, rfl⟩
      exact Or.inr ⟨d, hd, hlt⟩
  · rintro (⟨d, hd, hlt⟩ | ⟨d, hd, hlt⟩)
    · exact ⟨DBKey.data d,
        List.mem_append.mpr (Or.inl (List.mem_map_of_mem _ hd)),
        decide_eq_true hlt⟩
    · exact ⟨DBKey.index d,
        List.mem_append.mpr (Or.inr (List.mem_map_of_mem _ hd)),
        decide_eq_true hlt⟩

theorem expandedOf_versions (s : ServerState) (source : Option Chan)
    (sa : List (IndexKey × Finset String)) :
    (expandedOf s source sa).1.version_numbers = s.version_numbers :=
  (expandedOf_core s source sa).2.1

theorem handleNewTransaction_cur (s0 : ServerState)
    (source : Option Chan) (key_value : List (DataKey × Option String))
    (sa0 sr0 : List (IndexKey × Finset String)) (kc : List DataKey)
    (ic : List IndexKey) (aov : Int) :
    (handleNewTransaction s0 source key_value sa0 sr0 kc ic
      aov).1.cur_transaction_num = s0.cur_transaction_num + 1 := by
  by_cases h : aov < s0.cur_transaction_num + 1
  · by_cases hc : conflictB
        (expandedOf
          { s0 with cur_transaction_num := s0.cur_transaction_num + 1 }
          source (sa0.filter (fun p => p.2 ≠ ∅))).1.version_numbers
        kc ic aov = true
    · rw [handleNewTransaction_eq_failed s0 source key_value sa0 sr0 kc ic
        aov h hc]
      exact (expandedOf_core _ source _).1
    · rw [handleNewTransaction_eq_commit s0 source key_value sa0 sr0 kc ic
        aov h (Bool.not_eq_true _ ▸ hc)]
      rw [commitApply_cur]
      exact (expandedOf_core _ source _).1
  · rw [handleNewTransaction_eq_assert s0 source key_value sa0 sr0 kc ic
      aov h]

/-- C10: every call to the commit operation increments the global
transaction counter by exactly one, whether it returns success,
a conflict failure, or fails its transaction-id assertion — so failed
commit attempts consume a transaction id. -/
theorem every_commit_attempt_increments_counter (s0 : ServerState)
    (source : Option Chan) (key_value : List (DataKey × Option String))
    (sa0 sr0 : List (IndexKey × Finset String)) (kc : List DataKey)
    (ic : List IndexKey) (aov : Int) :
    (handleNewTransaction s0 source key_value sa0 sr0 kc ic
      aov).1.cur_transaction_num = s0.cur_transaction_num + 1 :=
  handleNewTransaction_cur s0 source key_value sa0 sr0 kc ic aov

/-- C9: refuted.  The synthetic connection-lifecycle transactions do
pass the transaction-id assertion and the conflict check (they use the
server's own counter as `as_of_version` and empty version-check
lists), but they can still fail with every KV call succeeding: in the
reachable state `exRedef9` — a channel slice-subscribed to the
`core.Connection " exists"` index which then redefined its `core`
schema to an empty definition — the `_createConnectionEntry` commit
for a fresh identity reaches the broadcast splice, where the unguarded
`channel.definedSchemas.get(schema_name).get(typename)` lookup
(server.py:360) yields nothing and `typedef.fields` (line 363) raises,
so the commit errors out instead of returning success.  The
`_dropConnectionEntry` commit in the same state, which adds no
identities, still succeeds. -/
theorem synthetic_create_commit_crashes :
    Reachable exRedef9 ∧
    (createConnectionEntry exRedef9 "c1").2.1 = TxnRes.spliceError ∧
    (dropConnectionEntry exRedef9 "c0").2.1 = TxnRes.ok := by
  refine ⟨?_, by decide, by decide⟩
  exact Reachable.defSchema 0 "core" []
    (Reachable.subscribe 0
      ⟨"core", some "Connection", some (" exists", trueHash)⟩
      (Reachable.defSchema 0 "core" exCoreDefn
        (Reachable.connect 0 "c0" (Reachable.init kvEmpty) rfl)))

/-- C1: a commit whose `as_of_version` does not exceed the current
transaction counter returns failure exactly when some key in
`keys_to_check_versions` or `indices_to_check_versions` has a recorded
version number strictly greater than `as_of_version` (a key never
mutated reads as version `-1`, per `version_numbers.get(key, -1)`). -/
theorem commit_failure_iff_version_conflict (s : ServerState)
    (source : Option Chan) (key_value : List (DataKey × Option String))
    (sa0 sr0 : List (IndexKey × Finset String)) (kc : List DataKey)
    (ic : List IndexKey) (aov : Int)
    (h : aov ≤ s.cur_transaction_num) :
    (handleNewTransaction s source key_value sa0 sr0 kc ic aov).2.1 =
        TxnRes.failed ↔
      (∃ k ∈ kc, aov < recordedVersion s.version_numbers (DBKey.data k)) ∨
      (∃ k ∈ ic, aov < recordedVersion s.version_numbers (DBKey.index k)) := by
  have hlt : aov < s.cur_transaction_num + 1 := by omega
  have hvn : (expandedOf
      { s with cur_transaction_num := s.cur_transaction_num + 1 }
      source (sa0.filter (fun p => p.2 ≠ ∅))).1.version_numbers =
      s.version_numbers :=
    expandedOf_versions _ source _
  by_cases hc : conflictB
      (expandedOf { s with cur_transaction_num := s.cur_transaction_num + 1 }
        source (sa0.filter (fun p => p.2 ≠ ∅))).1.version_numbers
      kc ic aov = true
  · rw [handleNewTransaction_eq_failed s source key_value sa0 sr0 kc ic
      aov hlt hc]
    rw [hvn] at hc
    exact iff_of_true rfl ((conflictB_iff_exists _ _ _ _).mp hc)
  · rw [handleNewTransaction_eq_commit s source key_value sa0 sr0 kc ic
      aov hlt (Bool.not_eq_true _ ▸ hc)]
    rw [hvn] at hc
    refine iff_of_false (commitApply_ne_failed _ _ _ _ _).1 ?_
    intro hex
    exact hc ((conflictB_iff_exists _ _ _ _).mpr hex)

/-- C1 witness: at a concrete input satisfying the hypothesis. -/
theorem commit_failure_iff_version_conflict_witness :
    (0 : Int) ≤ (initState kvEmpty).cur_transaction_num ∧
    ((handleNewTransaction (initState kvEmpty) none [] [] [] [] [] 0).2.1 =
        TxnRes.failed ↔
      (∃ k ∈ ([] : List DataKey),
        0 < recordedVersion (initState kvEmpty).version_numbers
          (DBKey.data k)) ∨
      (∃ k ∈ ([] : List IndexKey),
        0 < recordedVersion (initState kvEmpty).version_numbers
          (DBKey.index k))) :=
  ⟨le_refl 0,
   commit_failure_iff_version_conflict (initState kvEmpty) none [] [] [] []
     [] 0 (le_refl 0)⟩

/-- C2 counterexample: a commit that aborts with a transaction conflict
does change server state — the transaction counter is incremented, the
writer's pre-enrollment has mutated `identity→channels`, and a
`SubscriptionIncrease` message was emitted before the conflict check. -/
theorem conflict_abort_changes_state_cex :
    exConflict.2.1 = TxnRes.failed ∧
    exConflict.1.cur_transaction_num ≠ exWrite.1.cur_transaction_num ∧
    exConflict.1.id_to_channel "id9" ≠ exWrite.1.id_to_channel "id9" ∧
    exConflict.2.2.length = 1 := by
  refine ⟨?_, ?_, ?_, ?_⟩ <;> decide

/-- C2 (amended): when a commit aborts with a transaction conflict, the
version-number table, the KV store, the type and index-key fan-out
maps, and every channel's subscribed types, subscribed index keys and
defined schemas are unchanged; however the transaction counter has been
incremented by one, the writer's pre-enrollment may already have grown
`identity→channels` and the writer's `subscribedIds`, and the only
messages emitted by the commit itself are `SubscriptionIncrease`
messages to the writer (the `TransactionResult` is sent by the
dispatcher). -/
theorem conflict_abort_state_changes (s : ServerState)
    (source : Option Chan) (key_value : List (DataKey × Option String))
    (sa0 sr0 : List (IndexKey × Finset String)) (kc : List DataKey)
    (ic : List IndexKey) (aov : Int)
    (h : (handleNewTransaction s source key_value sa0 sr0 kc ic aov).2.1 =
      TxnRes.failed) :
    (handleNewTransaction s source key_value sa0 sr0 kc ic
        aov).1.version_numbers = s.version_numbers ∧
    (handleNewTransaction s source key_value sa0 sr0 kc ic aov).1.kvstore =
      s.kvstore ∧
    (handleNewTransaction s source key_value sa0 sr0 kc ic
        aov).1.type_to_channel = s.type_to_channel ∧
    (handleNewTransaction s source key_value sa0 sr0 kc ic
        aov).1.index_to_channel = s.index_to_channel ∧
    (handleNewTransaction s source key_value sa0 sr0 kc ic
        aov).1.cur_transaction_num = s.cur_transaction_num + 1 ∧
    SameButMoreIds s
      (handleNewTransaction s source key_value sa0 sr0 kc ic aov).1 ∧
    (∀ m ∈ (handleNewTransaction s source key_value sa0 sr0 kc ic aov).2.2,
      ∃ ch, source = some ch ∧ IsIncreaseTo ch m) := by
  by_cases hA : aov < s.cur_transaction_num + 1
  · by_cases hc : conflictB
        (expandedOf { s with cur_transaction_num := s.cur_transaction_num + 1 }
          source (sa0.filter (fun p => p.2 ≠ ∅))).1.version_numbers
        kc ic aov = true
    · rw [handleNewTransaction_eq_failed s source key_value sa0 sr0 kc ic
        aov hA hc]
      have hcore := expandedOf_core
        { s with cur_transaction_num := s.cur_transaction_num + 1 }
        source (sa0.filter (fun p => p.2 ≠ ∅))
      refine ⟨hcore.2.1, hcore.2.2.1, hcore.2.2.2.1, hcore.2.2.2.2,
        hcore.1, ?_, ?_⟩
      · exact sameButMoreIds_trans
          (show SameButMoreIds s
              { s with cur_transaction_num := s.cur_transaction_num + 1 }
            from sameButMoreIds_refl s)
          (expandedOf_sameButMoreIds _ source _)
      · exact expandedOf_msgs _ source _
    · exfalso
      rw [handleNewTransaction_eq_commit s source key_value sa0 sr0 kc ic
        aov hA (Bool.not_eq_true _ ▸ hc)] at h
      exact (commitApply_ne_failed _ _ _ _ _).1 h
  · exfalso
    rw [handleNewTransaction_eq_assert s source key_value sa0 sr0 kc ic
      aov hA] at h
    cases h

/-- C2 (amended) witness: at the concrete conflicting commit. -/
theorem conflict_abort_state_changes_witness :
    (handleNewTransaction exWrite.1 (some 0) []
        [(exExistsV, ({"id9"} : Finset String))] [] [exKey] [] 1).2.1 =
      TxnRes.failed ∧
    ((handleNewTransaction exWrite.1 (some 0) []
        [(exExistsV, ({"id9"} : Finset String))] [] [exKey] []
        1).1.version_numbers = exWrite.1.version_numbers ∧
     (handleNewTransaction exWrite.1 (some 0) []
        [(exExistsV, ({"id9"} : Finset String))] [] [exKey] []
        1).1.kvstore = exWrite.1.kvstore ∧
     (handleNewTransaction exWrite.1 (some 0) []
        [(exExistsV, ({"id9"} : Finset String))] [] [exKey] []
        1).1.type_to_channel = exWrite.1.type_to_channel ∧
     (handleNewTransaction exWrite.1 (some 0) []
        [(exExistsV, ({"id9"} : Finset String))] [] [exKey] []
        1).1.index_to_channel = exWrite.1.index_to_channel ∧
     (handleNewTransaction exWrite.1 (some 0) []
        [(exExistsV, ({"id9"} : Finset String))] [] [exKey] []
        1).1.cur_transaction_num = exWrite.1.cur_transaction_num + 1 ∧
     SameButMoreIds exWrite.1
       (handleNewTransaction exWrite.1 (some 0) []
         [(exExistsV, ({"id9"} : Finset String))] [] [exKey] [] 1).1 ∧
     (∀ m ∈ (handleNewTransaction exWrite.1 (some 0) []
         [(exExistsV, ({"id9"} : Finset String))] [] [exKey] [] 1).2.2,
       ∃ ch, (some 0 : Option Chan) = some ch ∧ IsIncreaseTo ch m)) :=
  ⟨by decide,
   conflict_abort_state_changes exWrite.1 (some 0) []
     [(exExistsV, ({"id9"} : Finset String))] [] [exKey] [] 1 (by decide)⟩

theorem subscribeOneType_versions (s : ServerState) (ch : Chan)
    (msg : SubMsg) (t : String) (td : TypeDef) :
    (subscribeOneType s ch msg t td).1.version_numbers =
      s.version_numbers := by
  unfold subscribeOneType
  cases msg.fieldname_and_value with
  | none => rfl
  | some p => by_cases hp : p.1 ≠ "_identity" <;> simp [hp]

theorem subscribeOneType_cur (s : ServerState) (ch : Chan)
    (msg : SubMsg) (t : String) (td : TypeDef) :
    (subscribeOneType s ch msg t td).1.cur_transaction_num =
      s.cur_transaction_num := by
  unfold subscribeOneType
  cases msg.fieldname_and_value with
  | none => rfl
  | some p => by_cases hp : p.1 ≠ "_identity" <;> simp [hp]

theorem subscribeOneType_kvstore (s : ServerState) (ch : Chan)
    (msg : SubMsg) (t : String) (td : TypeDef) :
    (subscribeOneType s ch msg t td).1.kvstore = s.kvstore := by
  unfold subscribeOneType
  cases msg.fieldname_and_value with
  | none => rfl
  | some p => by_cases hp : p.1 ≠ "_identity" <;> simp [hp]

theorem subLoop_versions (ch : Chan) (msg : SubMsg)
    (acc : ServerState × List (DataKey × Option String) ×
      List (IndexKey × Finset String) × Finset String) (l : SchemaDef) :
    (subLoop ch msg acc l).1.version_numbers = acc.1.version_numbers := by
  induction l generalizing acc with
  | nil => rfl
  | cons p rest ih =>
    rw [subLoop, ih]
    exact subscribeOneType_versions acc.1 ch msg p.1 p.2

theorem subLoop_cur (ch : Chan) (msg : SubMsg)
    (acc : ServerState × List (DataKey × Option String) ×
      List (IndexKey × Finset String) × Finset String) (l : SchemaDef) :
    (subLoop ch msg acc l).1.cur_transaction_num =
      acc.1.cur_transaction_num := by
  induction l generalizing acc with
  | nil => rfl
  | cons p rest ih =>
    rw [subLoop, ih]
    exact subscribeOneType_cur acc.1 ch msg p.1 p.2

theorem subLoop_kvstore (ch : Chan) (msg : SubMsg)
    (acc : ServerState × List (DataKey × Option String) ×
      List (IndexKey × Finset String) × Finset String) (l : SchemaDef) :
    (subLoop ch msg acc l).1.kvstore = acc.1.kvstore := by
  induction l generalizing acc with
  | nil => rfl
  | cons p rest ih =>
    rw [subLoop, ih]
    exact subscribeOneType_kvstore acc.1 ch msg p.1 p.2

theorem handleSubscription_ok_cases {s : ServerState} {ch : Chan}
    {msg : SubMsg} {r : ServerState × List (Chan × SMsg)}
    (hr : handleSubscription s ch msg = Except.ok r) :
    (∃ cs defn, s.clientChannels ch = some cs ∧
      cs.definedSchemas msg.schema = some defn ∧
      msg.typename = none ∧ msg.fieldname_and_value = none ∧
      r = ((subLoop ch msg (s, [], [], ∅) defn).1,
        [(ch, SMsg.Subscription msg.schema none none
            (subLoop ch msg (s, [], [], ∅) defn).2.1
            (subLoop ch msg (s, [], [], ∅) defn).2.2.1
            s.cur_transaction_num none)])) ∨
    (∃ cs defn t td, s.clientChannels ch = some cs ∧
      cs.definedSchemas msg.schema = some defn ∧
      msg.typename = some t ∧ alookup t defn = some td ∧
      msg.fieldname_and_value = none ∧
      r = ((subscribeOneType s ch msg t td).1,
        [(ch, SMsg.Subscription msg.schema (some t) msg.fieldname_and_value
            (subscribeOneType s ch msg t td).2.1
            (subscribeOneType s ch msg t td).2.2.1
            s.cur_transaction_num none)])) ∨
    (∃ cs defn t td p, s.clientChannels ch = some cs ∧
      cs.definedSchemas msg.schema = some defn ∧
      msg.typename = some t ∧ alookup t defn = some td ∧
      msg.fieldname_and_value = some p ∧
      r = ((subscribeOneType s ch msg t td).1,
        [(ch, SMsg.Subscription msg.schema (some t) msg.fieldname_and_value
            (subscribeOneType s ch msg t td).2.1
            (subscribeOneType s ch msg t td).2.2.1
            s.cur_transaction_num
            (some (subscribeOneType s ch msg t td).2.2.2))])) := by
  simp only [handleSubscription] at hr
  repeat' split at hr
  any_goals cases hr
  · rename_i x2 cs0 hcc x1 defn0 hdef x0 hty hfv
    exact Or.inl ⟨cs0, defn0, hcc, hdef, hty,
      Option.not_isSome_iff_eq_none.mp (by simpa using hfv), rfl⟩
  · rename_i x3 cs0 hcc x2 defn0 hdef x1 t0 hty x0 td0 htd xf hfv
    exact Or.inr (Or.inl ⟨cs0, defn0, t0, td0, hcc, hdef, hty, htd, hfv,
      rfl⟩)
  · rename_i x3 cs0 hcc x2 defn0 hdef x1 t0 hty x0 td0 htd xf p0 hfv
    exact Or.inr (Or.inr ⟨cs0, defn0, t0, td0, p0, hcc, hdef, hty, htd, hfv,
      rfl⟩)

theorem handleSubscription_ok_versions {s : ServerState} {ch : Chan}
    {msg : SubMsg} {r : ServerState × List (Chan × SMsg)}
    (hr : handleSubscription s ch msg = Except.ok r) :
    r.1.version_numbers = s.version_numbers := by
  rcases handleSubscription_ok_cases hr with
    ⟨cs, defn, _, _, _, _, hre⟩ | ⟨cs, defn, t, td, _, _, _, _, _, hre⟩ |
    ⟨cs, defn, t, td, p, _, _, _, _, _, hre⟩
  · rw [hre]; exact subLoop_versions ch msg _ _
  · rw [hre]; exact subscribeOneType_versions s ch msg t td
  · rw [hre]; exact subscribeOneType_versions s ch msg t td

theorem handleSubscription_ok_cur {s : ServerState} {ch : Chan}
    {msg : SubMsg} {r : ServerState × List (Chan × SMsg)}
    (hr : handleSubscription s ch msg = Except.ok r) :
    r.1.cur_transaction_num = s.cur_transaction_num := by
  rcases handleSubscription_ok_cases hr with
    ⟨cs, defn, _, _, _, _, hre⟩ | ⟨cs, defn, t, td, _, _, _, _, _, hre⟩ |
    ⟨cs, defn, t, td, p, _, _, _, _, _, hre⟩
  · rw [hre]; exact subLoop_cur ch msg _ _
  · rw [hre]; exact subscribeOneType_cur s ch msg t td
  · rw [hre]; exact subscribeOneType_cur s ch msg t td

theorem doSubscribe_versions (s : ServerState) (ch : Chan) (msg : SubMsg) :
    (doSubscribe s ch msg).1.version_numbers = s.version_numbers := by
  unfold doSubscribe
  cases hr : handleSubscription s ch msg with
  | error e => rfl
  | ok r => exact handleSubscription_ok_versions hr

theorem doSubscribe_cur (s : ServerState) (ch : Chan) (msg : SubMsg) :
    (doSubscribe s ch msg).1.cur_transaction_num = s.cur_transaction_num := by
  unfold doSubscribe
  cases hr : handleSubscription s ch msg with
  | error e => rfl
  | ok r => exact handleSubscription_ok_cur hr

theorem versionsBounded_hnt {s0 : ServerState} (source : Option Chan)
    (key_value : List (DataKey × Option String))
    (sa0 sr0 : List (IndexKey × Finset String)) (kc : List DataKey)
    (ic : List IndexKey) (aov : Int) (h : VersionsBounded s0) :
    VersionsBounded
      (handleNewTransaction s0 source key_value sa0 sr0 kc ic aov).1 := by
  intro k v hv
  rw [handleNewTransaction_cur]
  by_cases hA : aov < s0.cur_transaction_num + 1
  · by_cases hc : conflictB
        (expandedOf { s0 with cur_transaction_num := s0.cur_transaction_num + 1 }
          source (sa0.filter (fun p => p.2 ≠ ∅))).1.version_numbers
        kc ic aov = true
    · rw [handleNewTransaction_eq_failed s0 source key_value sa0 sr0 kc ic
        aov hA hc] at hv
      rw [expandedOf_versions] at hv
      exact le_trans (h k v hv) (by omega)
    · rw [handleNewTransaction_eq_commit s0 source key_value sa0 sr0 kc ic
        aov hA (Bool.not_eq_true _ ▸ hc)] at hv
      simp only [commitApply_versions] at hv
      split at hv
      · injection hv with hv
        omega
      · rw [expandedOf_versions] at hv
        exact le_trans (h k v hv) (by omega)
  · rw [handleNewTransaction_eq_assert s0 source key_value sa0 sr0 kc ic
      aov hA] at hv
    exact le_trans (h k v hv) (by omega)

theorem versionsBounded_addConnection {s : ServerState} {ch : Chan}
    {ident : String} (h : VersionsBounded s) :
    VersionsBounded (addConnection s ch ident).1 := by
  have hc : VersionsBounded (createConnectionEntry s ident).1 := by
    unfold createConnectionEntry
    exact versionsBounded_hnt none _ _ _ _ _ _ h
  simp only [addConnection]
  split <;> exact hc

theorem reachable_versionsBounded {s : ServerState} (h : Reachable s) :
    VersionsBounded s := by
  induction h with
  | init kv => intro k v hv; cases hv
  | connect ch ident h hfresh ih =>
    exact versionsBounded_addConnection ih
  | defSchema ch name defn h ih => exact ih
  | subscribe ch msg h ih =>
    intro k v hv
    rw [doSubscribe_versions] at hv
    rw [doSubscribe_cur]
    exact ih k v hv
  | commit ch key_value set_adds set_removes kc ic aov h hch ih =>
    exact versionsBounded_hnt (some ch) _ _ _ _ _ _ ih
  | drop ch h ih =>
    unfold dropConnection
    split
    · exact ih
    · exact versionsBounded_hnt none _ _ _ _ _ _ ih

/-- C3: after a successful commit assigned transaction id
`t = counter + 1`, every mutated key — every key written in `key_value`
and every index key with a non-empty `set_adds` or `set_removes`
entry — has version number exactly `t`, and `t` strictly exceeds every
version number present in the version table before the commit. -/
theorem successful_commit_stamps_versions (s : ServerState)
    (source : Option Chan) (key_value : List (DataKey × Option String))
    (sa0 sr0 : List (IndexKey × Finset String)) (kc : List DataKey)
    (ic : List IndexKey) (aov : Int) (hreach : Reachable s)
    (hok : (handleNewTransaction s source key_value sa0 sr0 kc ic aov).2.1 =
      TxnRes.ok) :
    (∀ k ∈ key_value.map Prod.fst,
      (handleNewTransaction s source key_value sa0 sr0 kc ic
        aov).1.version_numbers (DBKey.data k) =
        some (s.cur_transaction_num + 1)) ∧
    (∀ p ∈ sa0 ++ sr0, p.2 ≠ ∅ →
      (handleNewTransaction s source key_value sa0 sr0 kc ic
        aov).1.version_numbers (DBKey.index p.1) =
        some (s.cur_transaction_num + 1)) ∧
    (∀ k v, s.version_numbers k = some v → v < s.cur_transaction_num + 1) := by
  by_cases hA : aov < s.cur_transaction_num + 1
  · by_cases hc : conflictB
        (expandedOf { s with cur_transaction_num := s.cur_transaction_num + 1 }
          source (sa0.filter (fun p => p.2 ≠ ∅))).1.version_numbers
        kc ic aov = true
    · rw [handleNewTransaction_eq_failed s source key_value sa0 sr0 kc ic
        aov hA hc] at hok
      cases hok
    · rw [handleNewTransaction_eq_commit s source key_value sa0 sr0 kc ic
        aov hA (Bool.not_eq_true _ ▸ hc)]
      simp only [commitApply_versions]
      refine ⟨?_, ?_, ?_⟩
      · intro k hk
        rw [if_pos]
        exact List.mem_append_left _ (List.mem_map_of_mem DBKey.data hk)
      · intro p hp hne
        rw [if_pos]
        refine List.mem_append_right _ (List.mem_map_of_mem DBKey.index ?_)
        refine List.mem_map_of_mem Prod.fst ?_
        rcases List.mem_append.mp hp with h1 | h1
        · exact List.mem_append_left _
            (List.mem_filter.mpr ⟨h1, by simpa using hne⟩)
        · exact List.mem_append_right _
            (List.mem_filter.mpr ⟨h1, by simpa using hne⟩)
      · intro k v hv
        have := reachable_versionsBounded hreach k v hv
        omega
  · rw [handleNewTransaction_eq_assert s source key_value sa0 sr0 kc ic
      aov hA] at hok
    cases hok

/-- C3 witness: a concrete successful commit from a reachable state. -/
theorem successful_commit_stamps_versions_witness :
    Reachable (initState kvEmpty) ∧
    (handleNewTransaction (initState kvEmpty) none [(exKey, some "x")]
      [(exExistsT, ({"id1"} : Finset String))] [] [] [] 0).2.1 =
      TxnRes.ok ∧
    ((∀ k ∈ [(exKey, some "x")].map Prod.fst,
      (handleNewTransaction (initState kvEmpty) none [(exKey, some "x")]
        [(exExistsT, ({"id1"} : Finset String))] [] [] []
        0).1.version_numbers (DBKey.data k) =
        some ((initState kvEmpty).cur_transaction_num + 1)) ∧
     (∀ p ∈ [(exExistsT, ({"id1"} : Finset String))] ++
         ([] : List (IndexKey × Finset String)), p.2 ≠ ∅ →
      (handleNewTransaction (initState kvEmpty) none [(exKey, some "x")]
        [(exExistsT, ({"id1"} : Finset String))] [] [] []
        0).1.version_numbers (DBKey.index p.1) =
        some ((initState kvEmpty).cur_transaction_num + 1)) ∧
     (∀ k v, (initState kvEmpty).version_numbers k = some v →
        v < (initState kvEmpty).cur_transaction_num + 1)) :=
  ⟨Reachable.init kvEmpty, by decide,
   successful_commit_stamps_versions (initState kvEmpty) none
     [(exKey, some "x")] [(exExistsT, ({"id1"} : Finset String))] [] [] [] 0
     (Reachable.init kvEmpty) (by decide)⟩

/-- C7 counterexample: a whole-schema Subscribe over a definition with
two types produces exactly one `Subscription` message, not one per
type. -/
theorem whole_schema_subscribe_message_count_cex :
    exDefn.length = 2 ∧
    (handleSubscription exSchema 0 ⟨"S", none, none⟩).toOption.map
      (fun r => r.2.length) = some 1 := by
  exact ⟨rfl, by decide⟩

/-- C7 (amended): every successfully handled Subscribe message causes
exactly one `Subscription` message, sent to the subscribing channel,
echoing the request's schema, typename and fieldname-and-value,
carrying the values and sets accumulated over all subscribed types and
the current transaction id, with the identity tuple present exactly for
slice subscriptions. -/
theorem subscribe_emits_single_subscription_message (s : ServerState)
    (ch : Chan) (msg : SubMsg) (r : ServerState × List (Chan × SMsg))
    (h : handleSubscription s ch msg = Except.ok r) :
    ∃ values sets idents,
      r.2 = [(ch, SMsg.Subscription msg.schema msg.typename
        msg.fieldname_and_value values sets s.cur_transaction_num idents)] ∧
      (idents.isSome ↔ msg.fieldname_and_value.isSome) := by
  rcases handleSubscription_ok_cases h with
    ⟨cs, defn, hcc, hdef, hty, hfv, hre⟩ |
    ⟨cs, defn, t, td, hcc, hdef, hty, htd, hfv, hre⟩ |
    ⟨cs, defn, t, td, p, hcc, hdef, hty, htd, hfv, hre⟩
  · subst hre
    rw [hty, hfv]
    exact ⟨_, _, none, rfl, by simp⟩
  · subst hre
    rw [hty]
    exact ⟨_, _, none, rfl, by simp [hfv]⟩
  · subst hre
    rw [hty]
    exact ⟨_, _, some (subscribeOneType s ch msg t td).2.2.2, rfl,
      by simp [hfv]⟩

/-- C7 witness: the whole-schema subscribe example. -/
theorem subscribe_emits_single_subscription_message_witness :
    handleSubscription exSchema 0 ⟨"S", none, none⟩ = Except.ok exSubAll ∧
    (∃ values sets idents,
      exSubAll.2 = [(0, SMsg.Subscription "S" none none values sets
        exSchema.cur_transaction_num idents)] ∧
      (idents.isSome ↔ (none : Option (String × String)).isSome)) :=
  ⟨rfl,
   subscribe_emits_single_subscription_message exSchema 0 ⟨"S", none, none⟩
     exSubAll rfl⟩

/-- C8 counterexample: a Subscribe carrying a fieldname that is neither
`_identity` nor a declared index of the target type is not rejected:
the handler succeeds and enrolls the channel on the (unknown) index
key. -/
theorem unknown_index_field_not_rejected_cex :
    ¬ ("color" ∈ exTdT.indices) ∧
    "color" ≠ "_identity" ∧
    (handleSubscription exSchema 0
      ⟨"S", some "T", some ("color", "h")⟩).toOption.isSome = true ∧
    0 ∈ chanBucket (doSubscribe exSchema 0
      ⟨"S", some "T", some ("color", "h")⟩).1.index_to_channel
      ⟨"S", "T", "color", "h"⟩ := by
  refine ⟨?_, ?_, ?_, ?_⟩ <;> decide

/-- C8 (amended): the subscription handler validates only that the
schema is defined on the channel and the typename is in the definition;
it performs no check that the field of `fieldname_and_value` is a
declared index.  For any field other than `_identity` — declared index
or not — the handler succeeds and enrolls the channel on the
corresponding index key. -/
theorem slice_subscribe_accepts_undeclared_field (s : ServerState)
    (ch : Chan) (msg : SubMsg) (cs : ChannelState) (defn : SchemaDef)
    (t : String) (td : TypeDef) (f v : String)
    (hch : s.clientChannels ch = some cs)
    (hdef : cs.definedSchemas msg.schema = some defn)
    (hty : msg.typename = some t)
    (htd : alookup t defn = some td)
    (hfv : msg.fieldname_and_value = some (f, v))
    (hf : f ≠ "_identity") :
    ∃ r, handleSubscription s ch msg = Except.ok r ∧
      ch ∈ chanBucket r.1.index_to_channel ⟨msg.schema, t, f, v⟩ ∧
      (∃ cs', r.1.clientChannels ch = some cs' ∧
        ⟨msg.schema, t, f, v⟩ ∈ cs'.subscribedIndexKeys) := by
  have hr : handleSubscription s ch msg =
      Except.ok ((subscribeOneType s ch msg t td).1,
        [(ch, SMsg.Subscription msg.schema (some t) msg.fieldname_and_value
            (subscribeOneType s ch msg t td).2.1
            (subscribeOneType s ch msg t td).2.2.1
            s.cur_transaction_num
            (some (subscribeOneType s ch msg t td).2.2.2))]) := by
    simp only [handleSubscription, hch, hdef, hty, htd, hfv]
  have heq : (subscribeOneType s ch msg t td).1 =
      enrollIndexKey
        (enrollIds s ch
          (s.kvstore.sets (DBKey.index ⟨msg.schema, t, f, v⟩)))
        ch ⟨msg.schema, t, f, v⟩ := by
    simp only [subscribeOneType, hfv]
    simp [hf]
  refine ⟨_, hr, ?_, ?_⟩
  · show ch ∈ chanBucket (subscribeOneType s ch msg t td).1.index_to_channel
      ⟨msg.schema, t, f, v⟩
    rw [heq]
    simp [enrollIndexKey_i2c, bucketAddMany, chanBucket]
  · show ∃ cs', (subscribeOneType s ch msg t td).1.clientChannels ch =
      some cs' ∧ ⟨msg.schema, t, f, v⟩ ∈ cs'.subscribedIndexKeys
    rw [heq]
    rw [enrollIndexKey_clientChannels]
    simp only [if_pos rfl, enrollIds_clientChannels, hch]
    exact ⟨_, rfl, by simp⟩

/-- C8 (amended) witness: the concrete undeclared-field subscribe. -/
theorem slice_subscribe_accepts_undeclared_field_witness :
    exSchema.clientChannels 0 = some exCs ∧
    exCs.definedSchemas "S" = some exDefn ∧
    alookup "T" exDefn = some exTdT ∧
    "color" ≠ "_identity" ∧
    (∃ r, handleSubscription exSchema 0
        ⟨"S", some "T", some ("color", "h")⟩ = Except.ok r ∧
      0 ∈ chanBucket r.1.index_to_channel ⟨"S", "T", "color", "h"⟩ ∧
      (∃ cs', r.1.clientChannels 0 = some cs' ∧
        ⟨"S", "T", "color", "h"⟩ ∈ cs'.subscribedIndexKeys)) :=
  ⟨rfl, rfl, rfl, by decide,
   slice_subscribe_accepts_undeclared_field exSchema 0
     ⟨"S", some "T", some ("color", "h")⟩ exCs exDefn "T" exTdT "color" "h"
     rfl rfl rfl rfl rfl (by decide)⟩

theorem accumFold_go {α σ μ : Type} (g : σ → α → σ × List μ) (l : List α)
    (t : σ) (ms : List μ) :
    l.foldl (fun acc p => let r := g acc.1 p; (r.1, acc.2 ++ r.2)) (t, ms) =
      ((accumFold g t l).1, ms ++ (accumFold g t l).2) := by
  induction l generalizing t ms with
  | nil => simp [accumFold]
  | cons a rest ih =>
    simp only [accumFold, List.foldl_cons]
    rw [ih, ih ((g t a).1) ([] ++ (g t a).2)]
    simp

theorem accumFold_cons {α σ μ : Type} (g : σ → α → σ × List μ) (t : σ)
    (a : α) (l : List α) :
    accumFold g t (a :: l) =
      ((accumFold g (g t a).1 l).1,
       (g t a).2 ++ (accumFold g (g t a).1 l).2) := by
  have h := accumFold_go g l ((g t a).1) ((g t a).2)
  simp only [accumFold, List.foldl_cons, List.nil_append] at h ⊢
  exact h

theorem writerExpansion_cons (s : ServerState) (ch : Chan)
    (a : IndexKey × Finset String) (sa : List (IndexKey × Finset String)) :
    writerExpansion s ch (a :: sa) =
      ((writerExpansion (writerExpandEntry s ch a).1 ch sa).1,
       (writerExpandEntry s ch a).2 ++
         (writerExpansion (writerExpandEntry s ch a).1 ch sa).2) :=
  accumFold_cons _ s a sa

theorem chanBucket_addMany_mono {κ : Type} [DecidableEq κ]
    {m : κ → Option (Finset Chan)} {ks : Finset κ} {ch c : Chan} {k : κ}
    (h : c ∈ chanBucket m k) : c ∈ chanBucket (bucketAddMany m ks ch) k := by
  unfold chanBucket bucketAddMany
  split
  · simpa using Or.inl h
  · exact h

theorem enrollIds_bucket_mono {s : ServerState} {ch : Chan}
    {ids : Finset String} {c : Chan} {i : String}
    (h : c ∈ chanBucket s.id_to_channel i) :
    c ∈ chanBucket (enrollIds s ch ids).id_to_channel i := by
  rw [enrollIds_id2c]
  exact chanBucket_addMany_mono h

theorem writerExpandEntry_bucket_mono {s : ServerState} {ch : Chan}
    {p : IndexKey × Finset String} {c : Chan} {i : String}
    (h : c ∈ chanBucket s.id_to_channel i) :
    c ∈ chanBucket (writerExpandEntry s ch p).1.id_to_channel i := by
  unfold writerExpandEntry
  repeat' split
  all_goals first | exact h | exact enrollIds_bucket_mono h

theorem writerExpansion_bucket_mono {s : ServerState} {ch : Chan}
    {sa : List (IndexKey × Finset String)} {c : Chan} {i : String}
    (h : c ∈ chanBucket s.id_to_channel i) :
    c ∈ chanBucket (writerExpansion s ch sa).1.id_to_channel i := by
  refine accumFold_pres
    (P := fun t => c ∈ chanBucket t.id_to_channel i) ?_ s sa h
  intro t a ht
  exact writerExpandEntry_bucket_mono ht

theorem indexExpandChan_bucket_mono {s : ServerState} {ik : IndexKey}
    {adds : Finset String} {ch c : Chan} {i : String}
    (h : c ∈ chanBucket s.id_to_channel i) :
    c ∈ chanBucket (indexExpandChan s ik adds ch).1.id_to_channel i := by
  unfold indexExpandChan
  split
  · exact h
  · exact enrollIds_bucket_mono h

theorem indexExpandEntry_bucket_mono {s : ServerState}
    {p : IndexKey × Finset String}
    {bc : List (DataKey × Option String) × List (IndexKey × Finset String)}
    {c : Chan} {i : String} (h : c ∈ chanBucket s.id_to_channel i) :
    c ∈ chanBucket (indexExpandEntry s p bc).1.id_to_channel i := by
  unfold indexExpandEntry
  split
  · exact h
  · refine accumFold2_pres
      (P := fun (u : ServerState) => c ∈ chanBucket u.id_to_channel i) ?_ s
      (∅ : Finset String) _ h
    intro u a b hu
    exact indexExpandChan_bucket_mono hu

theorem commitApply_bucket_mono {s2 : ServerState}
    {key_value : List (DataKey × Option String)}
    {sa sr : List (IndexKey × Finset String)} {t : Int} {c : Chan}
    {i : String} (h : c ∈ chanBucket s2.id_to_channel i) :
    c ∈ chanBucket (commitApply s2 key_value sa sr t).1.id_to_channel i := by
  simp only [commitApply]
  split
  all_goals
    refine accumFold2E_pres
      (P := fun (u : ServerState) => c ∈ chanBucket u.id_to_channel i)
      ?_ _ _ _ h
  all_goals
    intro u a b hu
    exact indexExpandEntry_bucket_mono hu

theorem sameButMoreIds_ids_mono {s t : ServerState}
    (h : SameButMoreIds s t) {ch : Chan} {cs : ChannelState}
    {ids : Finset String} (hch : s.clientChannels ch = some cs)
    (hsub : ids ⊆ cs.subscribedIds) :
    ∃ cs', t.clientChannels ch = some cs' ∧ ids ⊆ cs'.subscribedIds := by
  rcases h ch with ⟨h1, _⟩ | ⟨cs0, cs', h1, h2, _, _, _, _, h5⟩
  · rw [hch] at h1; cases h1
  · rw [hch] at h1
    injection h1 with h1
    subst h1
    exact ⟨cs', h2, hsub.trans h5⟩

theorem writerExpansion_hits (ch : Chan) (ik : IndexKey)
    (ids : Finset String) (hex : ik.fieldname = " exists") :
    ∀ (sa : List (IndexKey × Finset String)) (s : ServerState)
      (cs0 : ChannelState), (ik, ids) ∈ sa →
      s.clientChannels ch = some cs0 →
      (ik.schema, ik.typename) ∉ cs0.subscribedTypes →
      (∀ i ∈ ids,
        ch ∈ chanBucket (writerExpansion s ch sa).1.id_to_channel i) ∧
      (∃ cs', (writerExpansion s ch sa).1.clientChannels ch = some cs' ∧
        ids ⊆ cs'.subscribedIds) ∧
      (ch, SMsg.SubscriptionIncrease ik.schema ik.typename
        (ik.fieldname, ik.fieldval) ids) ∈ (writerExpansion s ch sa).2 := by
  intro sa
  induction sa with
  | nil => intro s cs0 hmem; cases hmem
  | cons a rest ih =>
    intro s cs0 hmem hch hnot
    rw [writerExpansion_cons]
    rcases List.mem_cons.mp hmem with heq | hmem'
    · subst heq
      have hentry : writerExpandEntry s ch (ik, ids) =
          (enrollIds s ch ids,
           [(ch, SMsg.SubscriptionIncrease ik.schema ik.typename
               (ik.fieldname, ik.fieldval) ids)]) := by
        simp only [writerExpandEntry, hex, eq_self_iff_true, if_true, hch,
          if_neg hnot]
      rw [hentry]
      refine ⟨?_, ?_, ?_⟩
      · intro i hi
        refine writerExpansion_bucket_mono ?_
        rw [enrollIds_id2c]
        unfold chanBucket bucketAddMany
        rw [if_pos hi]
        simp
      · have hch2 : (enrollIds s ch ids).clientChannels ch =
            some { cs0 with subscribedIds := cs0.subscribedIds ∪ ids } := by
          simp [hch]
        exact sameButMoreIds_ids_mono
          (writerExpansion_sameButMoreIds (enrollIds s ch ids) ch rest)
          hch2 Finset.subset_union_right
      · exact List.mem_append_left _ (List.mem_singleton.mpr rfl)
    · have hnext := writerExpandEntry_sameButMoreIds s ch a
      rcases hnext ch with ⟨h1, _⟩ | ⟨cs1, cs1', h1, h2, _, _, he3, _, _⟩
      · rw [hch] at h1; cases h1
      · rw [hch] at h1
        injection h1 with h1
        subst h1
        have hnot' : (ik.schema, ik.typename) ∉ cs1'.subscribedTypes := by
          rw [he3]; exact hnot
        have H := ih (writerExpandEntry s ch a).1 cs1' hmem' h2 hnot'
        exact ⟨H.1, H.2.1, List.mem_append_right _ H.2.2⟩

/-- C6: when a writer channel commits adds into an `" exists"` index of
a `(schema, type)` it has not subscribed to as a whole type, then —
whatever the commit's outcome past the assertion — the writer ends up
registered in `identity→channels` for every added identity, the added
identities are in the writer's `subscribedIds`, and the writer was sent
a `SubscriptionIncrease` carrying exactly those identities. -/
theorem writer_exists_add_preenrolls (s : ServerState) (ch : Chan)
    (key_value : List (DataKey × Option String))
    (sa0 sr0 : List (IndexKey × Finset String)) (kc : List DataKey)
    (ic : List IndexKey) (aov : Int) (cs : ChannelState) (ik : IndexKey)
    (ids : Finset String)
    (hch : s.clientChannels ch = some cs)
    (hmem : (ik, ids) ∈ sa0) (hne : ids ≠ ∅)
    (hex : ik.fieldname = " exists")
    (hnot : (ik.schema, ik.typename) ∉ cs.subscribedTypes)
    (hA : aov < s.cur_transaction_num + 1) :
    (∀ i ∈ ids, ch ∈ chanBucket (handleNewTransaction s (some ch) key_value
      sa0 sr0 kc ic aov).1.id_to_channel i) ∧
    (∃ cs', (handleNewTransaction s (some ch) key_value sa0 sr0 kc ic
        aov).1.clientChannels ch = some cs' ∧ ids ⊆ cs'.subscribedIds) ∧
    (ch, SMsg.SubscriptionIncrease ik.schema ik.typename
      (ik.fieldname, ik.fieldval) ids) ∈
      (handleNewTransaction s (some ch) key_value sa0 sr0 kc ic aov).2.2 := by
  have hmem' : (ik, ids) ∈ sa0.filter (fun p => p.2 ≠ ∅) :=
    List.mem_filter.mpr ⟨hmem, by simpa using hne⟩
  have H := writerExpansion_hits ch ik ids hex
    (sa0.filter (fun p => p.2 ≠ ∅))
    { s with cur_transaction_num := s.cur_transaction_num + 1 } cs hmem'
    hch hnot
  by_cases hc : conflictB
      (expandedOf { s with cur_transaction_num := s.cur_transaction_num + 1 }
        (some ch) (sa0.filter (fun p => p.2 ≠ ∅))).1.version_numbers
      kc ic aov = true
  · rw [handleNewTransaction_eq_failed s (some ch) key_value sa0 sr0 kc ic
      aov hA hc]
    exact H
  · rw [handleNewTransaction_eq_commit s (some ch) key_value sa0 sr0 kc ic
      aov hA (Bool.not_eq_true _ ▸ hc)]
    refine ⟨?_, ?_, ?_⟩
    · intro i hi
      exact commitApply_bucket_mono (H.1 i hi)
    · rcases H.2.1 with ⟨cs', hcs', hsub⟩
      exact sameButMoreIds_ids_mono
        (commitApply_sameButMoreIds _ key_value _ _ _) hcs' hsub
    · exact List.mem_append_left _ H.2.2

theorem chanBucket_addMany_mem {κ : Type} [DecidableEq κ]
    (m : κ → Option (Finset Chan)) (ks : Finset κ) (ch c : Chan) (k : κ) :
    c ∈ chanBucket (bucketAddMany m ks ch) k ↔
      c ∈ chanBucket m k ∨ (c = ch ∧ k ∈ ks) := by
  simp only [bucketAddMany, chanBucket]
  split
  · rename_i hk
    simp [hk]
  · rename_i hk
    simp [hk]

theorem enrollIds_isSome (s : ServerState) (ch : Chan) (ids : Finset String)
    (c : Chan) : ((enrollIds s ch ids).clientChannels c).isSome =
      (s.clientChannels c).isSome := by
  rw [enrollIds_clientChannels]
  split
  · cases s.clientChannels c <;> rfl
  · rfl

theorem enrollIndexKey_isSome (s : ServerState) (ch : Chan) (ik : IndexKey)
    (c : Chan) : ((enrollIndexKey s ch ik).clientChannels c).isSome =
      (s.clientChannels c).isSome := by
  rw [enrollIndexKey_clientChannels]
  split
  · cases s.clientChannels c <;> rfl
  · rfl

theorem enrollType_isSome (s : ServerState) (ch : Chan)
    (st : String × String) (c : Chan) :
    ((enrollType s ch st).clientChannels c).isSome =
      (s.clientChannels c).isSome := by
  rw [enrollType_clientChannels]
  split
  · cases s.clientChannels c <;> rfl
  · rfl

theorem inverse_enrollIds {s : ServerState} {ch : Chan} {ids : Finset String}
    (hlive : (s.clientChannels ch).isSome) (h : Inverse s) :
    Inverse (enrollIds s ch ids) := by
  obtain ⟨h1, h2, h3, h4⟩ := h
  refine ⟨?_, ?_, ?_, ?_⟩
  · intro c cs hc
    rw [enrollIds_clientChannels] at hc
    by_cases hcc : c = ch
    · rw [if_pos hcc] at hc
      rcases Option.map_eq_some'.mp hc with ⟨cs0, hcs0, rfl⟩
      subst hcc
      obtain ⟨ht, hik, hid⟩ := h1 c cs0 hcs0
      refine ⟨ht, hik, ?_⟩
      intro i
      rw [enrollIds_id2c, chanBucket_addMany_mem, ← hid i]
      simp [Finset.mem_union]
    · rw [if_neg hcc] at hc
      obtain ⟨ht, hik, hid⟩ := h1 c cs hc
      refine ⟨ht, hik, ?_⟩
      intro i
      rw [enrollIds_id2c, chanBucket_addMany_mem, ← hid i]
      simp [hcc]
  · intro st c hmem
    rw [enrollIds_isSome]
    exact h2 st c hmem
  · intro ik c hmem
    rw [enrollIds_isSome]
    exact h3 ik c hmem
  · intro i c hmem
    rw [enrollIds_id2c, chanBucket_addMany_mem] at hmem
    rw [enrollIds_isSome]
    rcases hmem with hm | ⟨rfl, -⟩
    · exact h4 i c hm
    · exact hlive

theorem inverse_enrollIndexKey {s : ServerState} {ch : Chan} {ik : IndexKey}
    (hlive : (s.clientChannels ch).isSome) (h : Inverse s) :
    Inverse (enrollIndexKey s ch ik) := by
  obtain ⟨h1, h2, h3, h4⟩ := h
  refine ⟨?_, ?_, ?_, ?_⟩
  · intro c cs hc
    rw [enrollIndexKey_clientChannels] at hc
    by_cases hcc : c = ch
    · rw [if_pos hcc] at hc
      rcases Option.map_eq_some'.mp hc with ⟨cs0, hcs0, rfl⟩
      subst hcc
      obtain ⟨ht, hikk, hid⟩ := h1 c cs0 hcs0
      refine ⟨ht, ?_, hid⟩
      intro ik2
      rw [enrollIndexKey_i2c, chanBucket_addMany_mem, ← hikk ik2]
      simp [Finset.mem_union]
    · rw [if_neg hcc] at hc
      obtain ⟨ht, hikk, hid⟩ := h1 c cs hc
      refine ⟨ht, ?_, hid⟩
      intro ik2
      rw [enrollIndexKey_i2c, chanBucket_addMany_mem, ← hikk ik2]
      simp [hcc]
  · intro st c hmem
    rw [enrollIndexKey_isSome]
    exact h2 st c hmem
  · intro ik2 c hmem
    rw [enrollIndexKey_i2c, chanBucket_addMany_mem] at hmem
    rw [enrollIndexKey_isSome]
    rcases hmem with hm | ⟨rfl, -⟩
    · exact h3 ik2 c hm
    · exact hlive
  · intro i c hmem
    rw [enrollIndexKey_isSome]
    exact h4 i c hmem

theorem inverse_enrollType {s : ServerState} {ch : Chan}
    {st : String × String} (hlive : (s.clientChannels ch).isSome)
    (h : Inverse s) : Inverse (enrollType s ch st) := by
  obtain ⟨h1, h2, h3, h4⟩ := h
  refine ⟨?_, ?_, ?_, ?_⟩
  · intro c cs hc
    rw [enrollType_clientChannels] at hc
    by_cases hcc : c = ch
    · rw [if_pos hcc] at hc
      rcases Option.map_eq_some'.mp hc with ⟨cs0, hcs0, rfl⟩
      subst hcc
      obtain ⟨ht, hikk, hid⟩ := h1 c cs0 hcs0
      refine ⟨?_, hikk, hid⟩
      intro st2
      rw [enrollType_t2c, chanBucket_addMany_mem, ← ht st2]
      simp [Finset.mem_union]
    · rw [if_neg hcc] at hc
      obtain ⟨ht, hikk, hid⟩ := h1 c cs hc
      refine ⟨?_, hikk, hid⟩
      intro st2
      rw [enrollType_t2c, chanBucket_addMany_mem, ← ht st2]
      simp [hcc]
  · intro st2 c hmem
    rw [enrollType_t2c, chanBucket_addMany_mem] at hmem
    rw [enrollType_isSome]
    rcases hmem with hm | ⟨rfl, -⟩
    · exact h2 st2 c hm
    · exact hlive
  · intro ik c hmem
    rw [enrollType_isSome]
    exact h3 ik c hmem
  · intro i c hmem
    rw [enrollType_isSome]
    exact h4 i c hmem

theorem inverse_writerExpandEntry {s : ServerState} {ch : Chan}
    {p : IndexKey × Finset String} (h : Inverse s) :
    Inverse (writerExpandEntry s ch p).1 := by
  by_cases hex : p.1.fieldname = " exists"
  · simp only [writerExpandEntry, if_pos hex]
    cases hq : s.clientChannels ch with
    | none => exact h
    | some cs =>
      by_cases hsub : (p.1.schema, p.1.typename) ∈ cs.subscribedTypes
      · simp only [if_pos hsub]
        exact h
      · simp only [if_neg hsub]
        exact inverse_enrollIds (by rw [hq]; rfl) h
  · simp only [writerExpandEntry, if_neg hex]
    exact h

theorem inverse_writerExpansion {s : ServerState} {ch : Chan}
    {sa : List (IndexKey × Finset String)} (h : Inverse s) :
    Inverse (writerExpansion s ch sa).1 :=
  accumFold_pres (P := Inverse) (fun t a ht => inverse_writerExpandEntry ht)
    s sa h

theorem inverse_expandedOf {s : ServerState} {source : Option Chan}
    {sa : List (IndexKey × Finset String)} (h : Inverse s) :
    Inverse (expandedOf s source sa).1 := by
  cases source with
  | none => exact h
  | some ch => exact inverse_writerExpansion h

theorem inverse_indexExpandChan {s : ServerState} {ik : IndexKey}
    {adds : Finset String} {ch : Chan} (h : Inverse s) :
    Inverse (indexExpandChan s ik adds ch).1 := by
  unfold indexExpandChan
  cases hq : s.clientChannels ch with
  | none => exact h
  | some cs => exact inverse_enrollIds (by rw [hq]; rfl) h

theorem inverse_indexExpandEntry {s : ServerState}
    {p : IndexKey × Finset String}
    {bc : List (DataKey × Option String) × List (IndexKey × Finset String)}
    (h : Inverse s) : Inverse (indexExpandEntry s p bc).1 := by
  unfold indexExpandEntry
  split
  · exact h
  · refine accumFold2_pres (P := Inverse) ?_ s (∅ : Finset String) _ h
    intro u a b hu
    exact inverse_indexExpandChan hu

theorem inverse_commitApply {s2 : ServerState}
    {key_value : List (DataKey × Option String)}
    {sa sr : List (IndexKey × Finset String)} {t : Int} (h : Inverse s2) :
    Inverse (commitApply s2 key_value sa sr t).1 := by
  simp only [commitApply]
  split
  all_goals
    refine accumFold2E_pres (P := Inverse) ?_ _ _ _ h
  all_goals
    intro u a b hu
    exact inverse_indexExpandEntry hu

theorem inverse_handleNewTransaction {s0 : ServerState}
    (source : Option Chan) (key_value : List (DataKey × Option String))
    (sa0 sr0 : List (IndexKey × Finset String)) (kc : List DataKey)
    (ic : List IndexKey) (aov : Int) (h : Inverse s0) :
    Inverse (handleNewTransaction s0 source key_value sa0 sr0 kc ic
      aov).1 := by
  have h1 : Inverse
      { s0 with cur_transaction_num := s0.cur_transaction_num + 1 } := h
  by_cases hA : aov < s0.cur_transaction_num + 1
  · by_cases hc : conflictB
        (expandedOf { s0 with cur_transaction_num := s0.cur_transaction_num + 1 }
          source (sa0.filter (fun p => p.2 ≠ ∅))).1.version_numbers
        kc ic aov = true
    · rw [handleNewTransaction_eq_failed s0 source key_value sa0 sr0 kc ic
        aov hA hc]
      exact inverse_expandedOf h1
    · rw [handleNewTransaction_eq_commit s0 source key_value sa0 sr0 kc ic
        aov hA (Bool.not_eq_true _ ▸ hc)]
      exact inverse_commitApply (inverse_expandedOf h1)
  · rw [handleNewTransaction_eq_assert s0 source key_value sa0 sr0 kc ic
      aov hA]
    exact h1

theorem handleNewTransaction_sameButMoreIds (s0 : ServerState)
    (source : Option Chan) (key_value : List (DataKey × Option String))
    (sa0 sr0 : List (IndexKey × Finset String)) (kc : List DataKey)
    (ic : List IndexKey) (aov : Int) :
    SameButMoreIds s0
      (handleNewTransaction s0 source key_value sa0 sr0 kc ic aov).1 := by
  have h1 : SameButMoreIds s0
      { s0 with cur_transaction_num := s0.cur_transaction_num + 1 } :=
    sameButMoreIds_refl s0
  by_cases hA : aov < s0.cur_transaction_num + 1
  · by_cases hc : conflictB
        (expandedOf { s0 with cur_transaction_num := s0.cur_transaction_num + 1 }
          source (sa0.filter (fun p => p.2 ≠ ∅))).1.version_numbers
        kc ic aov = true
    · rw [handleNewTransaction_eq_failed s0 source key_value sa0 sr0 kc ic
        aov hA hc]
      exact sameButMoreIds_trans h1 (expandedOf_sameButMoreIds _ source _)
    · rw [handleNewTransaction_eq_commit s0 source key_value sa0 sr0 kc ic
        aov hA (Bool.not_eq_true _ ▸ hc)]
      exact sameButMoreIds_trans
        (sameButMoreIds_trans h1 (expandedOf_sameButMoreIds _ source _))
        (commitApply_sameButMoreIds _ _ _ _ _)
  · rw [handleNewTransaction_eq_assert s0 source key_value sa0 sr0 kc ic
      aov hA]
    exact h1

theorem sameButMoreIds_none {s t : ServerState} (h : SameButMoreIds s t)
    (c : Chan) (hc : s.clientChannels c = none) :
    t.clientChannels c = none := by
  rcases h c with ⟨_, h2⟩ | ⟨cs, cs', h1, _⟩
  · exact h2
  · rw [hc] at h1
    cases h1

theorem inverse_register {s : ServerState} {ch : Chan} {cs0 : ChannelState}
    (h : Inverse s) (hfresh : s.clientChannels ch = none)
    (hempty : cs0.subscribedTypes = ∅ ∧ cs0.subscribedIds = ∅ ∧
      cs0.subscribedIndexKeys = ∅) :
    Inverse { s with clientChannels :=
      fun c => if c = ch then some cs0 else s.clientChannels c } := by
  obtain ⟨h1, h2, h3, h4⟩ := h
  obtain ⟨he1, he2, he3⟩ := hempty
  refine ⟨?_, ?_, ?_, ?_⟩
  · intro c cs hc
    simp only at hc
    by_cases hcc : c = ch
    · rw [if_pos hcc] at hc
      injection hc with hc
      subst hc
      subst hcc
      refine ⟨?_, ?_, ?_⟩
      · intro st
        rw [he1]
        constructor
        · intro hst
          cases hst
        · intro hst
          have := h2 st c hst
          rw [hfresh] at this
          cases this
      · intro ik
        rw [he3]
        constructor
        · intro hst
          cases hst
        · intro hst
          have := h3 ik c hst
          rw [hfresh] at this
          cases this
      · intro i
        rw [he2]
        constructor
        · intro hst
          cases hst
        · intro hst
          have := h4 i c hst
          rw [hfresh] at this
          cases this
    · rw [if_neg hcc] at hc
      exact h1 c cs hc
  · intro st c hmem
    simp only
    split
    · rfl
    · exact h2 st c hmem
  · intro ik c hmem
    simp only
    split
    · rfl
    · exact h3 ik c hmem
  · intro i c hmem
    simp only
    split
    · rfl
    · exact h4 i c hmem

theorem inverse_addConnection {s : ServerState} {ch : Chan} {ident : String}
    (h : Inverse s) (hfresh : s.clientChannels ch = none) :
    Inverse (addConnection s ch ident).1 := by
  have hinv : Inverse (createConnectionEntry s ident).1 := by
    unfold createConnectionEntry
    exact inverse_handleNewTransaction none _ _ _ _ _ _ h
  have hnone : (createConnectionEntry s ident).1.clientChannels ch = none := by
    unfold createConnectionEntry
    exact sameButMoreIds_none
      (handleNewTransaction_sameButMoreIds s none _ _ _ _ _ _) ch hfresh
  simp only [addConnection]
  split
  · exact inverse_register hinv hnone ⟨rfl, rfl, rfl⟩
  all_goals exact hinv

theorem scrub_cc (s : ServerState) (ch : Chan) (cs : ChannelState)
    (c : Chan) : (scrubChannel s ch cs).clientChannels c =
      if c = ch then none else s.clientChannels c := rfl

theorem scrub_t2c_bucket (s : ServerState) (ch : Chan) (cs : ChannelState)
    (st : String × String) :
    chanBucket (scrubChannel s ch cs).type_to_channel st =
      if st ∈ cs.subscribedTypes then
        (chanBucket s.type_to_channel st).erase ch
      else chanBucket s.type_to_channel st := by
  simp only [scrubChannel, chanBucket]
  split
  · cases s.type_to_channel st <;> simp
  · rfl

theorem scrub_i2c_bucket (s : ServerState) (ch : Chan) (cs : ChannelState)
    (ik : IndexKey) :
    chanBucket (scrubChannel s ch cs).index_to_channel ik =
      if ik ∈ cs.subscribedIndexKeys then
        (chanBucket s.index_to_channel ik).erase ch
      else chanBucket s.index_to_channel ik := by
  simp only [scrubChannel, chanBucket]
  split
  · cases s.index_to_channel ik with
    | none => simp
    | some b => by_cases hb : b.erase ch = ∅ <;> simp [hb]
  · rfl

theorem scrub_id2c_bucket (s : ServerState) (ch : Chan) (cs : ChannelState)
    (i : String) :
    chanBucket (scrubChannel s ch cs).id_to_channel i =
      if i ∈ cs.subscribedIds then
        (chanBucket s.id_to_channel i).erase ch
      else chanBucket s.id_to_channel i := by
  simp only [scrubChannel, chanBucket]
  split
  · cases s.id_to_channel i with
    | none => simp
    | some b => by_cases hb : b.erase ch = ∅ <;> simp [hb]
  · rfl

theorem inverse_scrubChannel {s : ServerState} {ch : Chan}
    {cs : ChannelState} (hch : s.clientChannels ch = some cs)
    (h : Inverse s) : Inverse (scrubChannel s ch cs) := by
  obtain ⟨h1, h2, h3, h4⟩ := h
  obtain ⟨hT, hK, hI⟩ := h1 ch cs hch
  refine ⟨?_, ?_, ?_, ?_⟩
  · intro c cs_c hc
    rw [scrub_cc] at hc
    by_cases hcc : c = ch
    · rw [if_pos hcc] at hc
      cases hc
    · rw [if_neg hcc] at hc
      obtain ⟨ht, hik, hid⟩ := h1 c cs_c hc
      refine ⟨?_, ?_, ?_⟩
      · intro st
        rw [scrub_t2c_bucket]
        split
        · rw [Finset.mem_erase]
          constructor
          · intro hst
            exact ⟨hcc, (ht st).mp hst⟩
          · rintro ⟨-, hm⟩
            exact (ht st).mpr hm
        · exact ht st
      · intro ik
        rw [scrub_i2c_bucket]
        split
        · rw [Finset.mem_erase]
          constructor
          · intro hst
            exact ⟨hcc, (hik ik).mp hst⟩
          · rintro ⟨-, hm⟩
            exact (hik ik).mpr hm
        · exact hik ik
      · intro i
        rw [scrub_id2c_bucket]
        split
        · rw [Finset.mem_erase]
          constructor
          · intro hst
            exact ⟨hcc, (hid i).mp hst⟩
          · rintro ⟨-, hm⟩
            exact (hid i).mpr hm
        · exact hid i
  · intro st c hm
    rw [scrub_t2c_bucket] at hm
    rw [scrub_cc]
    by_cases hcc : c = ch
    · subst hcc
      exfalso
      revert hm
      split
      · intro hm
        exact (Finset.mem_erase.mp hm).1 rfl
      · rename_i hst
        intro hm
        exact hst ((hT st).mpr hm)
    · rw [if_neg hcc]
      refine h2 st c ?_
      revert hm
      split
      · intro hm
        exact Finset.mem_of_mem_erase hm
      · intro hm
        exact hm
  · intro ik c hm
    rw [scrub_i2c_bucket] at hm
    rw [scrub_cc]
    by_cases hcc : c = ch
    · subst hcc
      exfalso
      revert hm
      split
      · intro hm
        exact (Finset.mem_erase.mp hm).1 rfl
      · rename_i hst
        intro hm
        exact hst ((hK ik).mpr hm)
    · rw [if_neg hcc]
      refine h3 ik c ?_
      revert hm
      split
      · intro hm
        exact Finset.mem_of_mem_erase hm
      · intro hm
        exact hm
  · intro i c hm
    rw [scrub_id2c_bucket] at hm
    rw [scrub_cc]
    by_cases hcc : c = ch
    · subst hcc
      exfalso
      revert hm
      split
      · intro hm
        exact (Finset.mem_erase.mp hm).1 rfl
      · rename_i hst
        intro hm
        exact hst ((hI i).mpr hm)
    · rw [if_neg hcc]
      refine h4 i c ?_
      revert hm
      split
      · intro hm
        exact Finset.mem_of_mem_erase hm
      · intro hm
        exact hm

theorem inverse_dropConnection {s : ServerState} {ch : Chan}
    (h : Inverse s) : Inverse (dropConnection s ch).1 := by
  unfold dropConnection
  cases hq : s.clientChannels ch with
  | none => exact h
  | some cs =>
    exact inverse_handleNewTransaction none _ _ _ _ _ _
      (inverse_scrubChannel hq h)

theorem updateChannel_isSome (s : ServerState) (ch : Chan)
    (f : ChannelState → ChannelState) (c : Chan) :
    ((updateChannel s ch f).clientChannels c).isSome =
      (s.clientChannels c).isSome := by
  rw [updateChannel_clientChannels]
  split
  · cases s.clientChannels c <;> rfl
  · rfl

theorem inverse_defineSchema {s : ServerState} {ch : Chan} {name : String}
    {defn : SchemaDef} (h : Inverse s) :
    Inverse (defineSchema s ch name defn) := by
  obtain ⟨h1, h2, h3, h4⟩ := h
  refine ⟨?_, ?_, ?_, ?_⟩
  · intro c cs hc
    rw [defineSchema, updateChannel_clientChannels] at hc
    by_cases hcc : c = ch
    · rw [if_pos hcc] at hc
      rcases Option.map_eq_some'.mp hc with ⟨cs0, hcs0, rfl⟩
      exact h1 c cs0 hcs0
    · rw [if_neg hcc] at hc
      exact h1 c cs hc
  · intro st c hm
    rw [defineSchema, updateChannel_isSome]
    exact h2 st c hm
  · intro ik c hm
    rw [defineSchema, updateChannel_isSome]
    exact h3 ik c hm
  · intro i c hm
    rw [defineSchema, updateChannel_isSome]
    exact h4 i c hm

theorem subscribeOneType_isSome (s : ServerState) (ch : Chan) (msg : SubMsg)
    (t : String) (td : TypeDef) (c : Chan) :
    ((subscribeOneType s ch msg t td).1.clientChannels c).isSome =
      (s.clientChannels c).isSome := by
  unfold subscribeOneType
  cases hfv : msg.fieldname_and_value with
  | none => exact enrollType_isSome s ch (msg.schema, t) c
  | some p =>
    dsimp only
    by_cases hp : p.1 ≠ "_identity"
    · rw [if_pos hp, enrollIndexKey_isSome, enrollIds_isSome]
    · rw [if_neg hp, enrollIds_isSome]

theorem inverse_subscribeOneType {s : ServerState} {ch : Chan}
    {msg : SubMsg} (t : String) (td : TypeDef)
    (hlive : (s.clientChannels ch).isSome) (h : Inverse s) :
    Inverse (subscribeOneType s ch msg t td).1 := by
  unfold subscribeOneType
  cases hfv : msg.fieldname_and_value with
  | none => exact inverse_enrollType hlive h
  | some p =>
    dsimp only
    by_cases hp : p.1 ≠ "_identity"
    · rw [if_pos hp]
      refine inverse_enrollIndexKey ?_ (inverse_enrollIds hlive h)
      rw [enrollIds_isSome]
      exact hlive
    · rw [if_neg hp]
      exact inverse_enrollIds hlive h

theorem inverse_subLoop (ch : Chan) (msg : SubMsg) :
    ∀ (l : SchemaDef)
      (acc : ServerState × List (DataKey × Option String) ×
        List (IndexKey × Finset String) × Finset String),
      Inverse acc.1 → (acc.1.clientChannels ch).isSome →
      Inverse (subLoop ch msg acc l).1 := by
  intro l
  induction l with
  | nil => intro acc h _; exact h
  | cons p rest ih =>
    intro acc h hlive
    rw [subLoop]
    refine ih _ (inverse_subscribeOneType p.1 p.2 hlive h) ?_
    rw [subscribeOneType_isSome]
    exact hlive

theorem inverse_doSubscribe {s : ServerState} {ch : Chan} {msg : SubMsg}
    (h : Inverse s) : Inverse (doSubscribe s ch msg).1 := by
  unfold doSubscribe
  cases hr : handleSubscription s ch msg with
  | error e => exact h
  | ok r =>
    rcases handleSubscription_ok_cases hr with
      ⟨cs, defn, hcc, _, _, _, hre⟩ |
      ⟨cs, defn, t, td, hcc, _, _, _, _, hre⟩ |
      ⟨cs, defn, t, td, p, hcc, _, _, _, _, hre⟩
    · subst hre
      exact inverse_subLoop ch msg defn _ h (by rw [hcc]; rfl)
    · subst hre
      exact inverse_subscribeOneType t td (by rw [hcc]; rfl) h
    · subst hre
      exact inverse_subscribeOneType t td (by rw [hcc]; rfl) h

theorem reachable_inverse {s : ServerState} (h : Reachable s) :
    Inverse s := by
  induction h with
  | init kv =>
    refine ⟨?_, ?_, ?_, ?_⟩
    · intro c cs hc
      cases hc
    · intro st c hm
      simp [initState, chanBucket] at hm
    · intro ik c hm
      simp [initState, chanBucket] at hm
    · intro i c hm
      simp [initState, chanBucket] at hm
  | connect ch ident h hfresh ih => exact inverse_addConnection ih hfresh
  | defSchema ch name defn h ih => exact inverse_defineSchema ih
  | subscribe ch msg h ih => exact inverse_doSubscribe ih
  | commit ch key_value set_adds set_removes kc ic aov h hch ih =>
    exact inverse_handleNewTransaction (some ch) _ _ _ _ _ _ ih
  | drop ch h ih => exact inverse_dropConnection ih

theorem noEmpty_bucketAddMany {κ : Type} [DecidableEq κ]
    {m : κ → Option (Finset Chan)} {ks : Finset κ} {ch : Chan}
    (h : ∀ k, m k ≠ some ∅) : ∀ k, bucketAddMany m ks ch k ≠ some ∅ := by
  intro k
  simp only [bucketAddMany]
  split
  · intro hcon
    injection hcon with hcon
    have hch : ch ∈ chanBucket m k ∪ {ch} := by simp
    rw [hcon] at hch
    simp at hch
  · exact h k

theorem noEmpty_enrollIds {s : ServerState} {ch : Chan} {ids : Finset String}
    (h : NoEmptyIdxIdBuckets s) : NoEmptyIdxIdBuckets (enrollIds s ch ids) :=
  ⟨h.1, noEmpty_bucketAddMany h.2⟩

theorem noEmpty_enrollIndexKey {s : ServerState} {ch : Chan} {ik : IndexKey}
    (h : NoEmptyIdxIdBuckets s) :
    NoEmptyIdxIdBuckets (enrollIndexKey s ch ik) :=
  ⟨noEmpty_bucketAddMany h.1, h.2⟩

theorem noEmpty_enrollType {s : ServerState} {ch : Chan}
    {st : String × String} (h : NoEmptyIdxIdBuckets s) :
    NoEmptyIdxIdBuckets (enrollType s ch st) := h

theorem noEmpty_writerExpandEntry {s : ServerState} {ch : Chan}
    {p : IndexKey × Finset String} (h : NoEmptyIdxIdBuckets s) :
    NoEmptyIdxIdBuckets (writerExpandEntry s ch p).1 := by
  unfold writerExpandEntry
  repeat' split
  all_goals first | exact h | exact noEmpty_enrollIds h

theorem noEmpty_indexExpandChan {s : ServerState} {ik : IndexKey}
    {adds : Finset String} {ch : Chan} (h : NoEmptyIdxIdBuckets s) :
    NoEmptyIdxIdBuckets (indexExpandChan s ik adds ch).1 := by
  unfold indexExpandChan
  split
  · exact h
  · exact noEmpty_enrollIds h

theorem noEmpty_indexExpandEntry {s : ServerState}
    {p : IndexKey × Finset String}
    {bc : List (DataKey × Option String) × List (IndexKey × Finset String)}
    (h : NoEmptyIdxIdBuckets s) :
    NoEmptyIdxIdBuckets (indexExpandEntry s p bc).1 := by
  unfold indexExpandEntry
  split
  · exact h
  · refine accumFold2_pres (P := NoEmptyIdxIdBuckets) ?_ s
      (∅ : Finset String) _ h
    intro u a b hu
    exact noEmpty_indexExpandChan hu

theorem noEmpty_handleNewTransaction {s0 : ServerState}
    (source : Option Chan) (key_value : List (DataKey × Option String))
    (sa0 sr0 : List (IndexKey × Finset String)) (kc : List DataKey)
    (ic : List IndexKey) (aov : Int) (h : NoEmptyIdxIdBuckets s0) :
    NoEmptyIdxIdBuckets
      (handleNewTransaction s0 source key_value sa0 sr0 kc ic aov).1 := by
  have hexp : NoEmptyIdxIdBuckets
      (expandedOf { s0 with cur_transaction_num := s0.cur_transaction_num + 1 }
        source (sa0.filter (fun p => p.2 ≠ ∅))).1 := by
    cases source with
    | none => exact h
    | some ch =>
      refine accumFold_pres (P := NoEmptyIdxIdBuckets) ?_ _ _ h
      intro t a ht
      exact noEmpty_writerExpandEntry ht
  by_cases hA : aov < s0.cur_transaction_num + 1
  · by_cases hc : conflictB
        (expandedOf { s0 with cur_transaction_num := s0.cur_transaction_num + 1 }
          source (sa0.filter (fun p => p.2 ≠ ∅))).1.version_numbers
        kc ic aov = true
    · rw [handleNewTransaction_eq_failed s0 source key_value sa0 sr0 kc ic
        aov hA hc]
      exact hexp
    · rw [handleNewTransaction_eq_commit s0 source key_value sa0 sr0 kc ic
        aov hA (Bool.not_eq_true _ ▸ hc)]
      simp only [commitApply]
      split
      all_goals
        refine accumFold2E_pres (P := NoEmptyIdxIdBuckets) ?_ _ _ _ hexp
      all_goals
        intro u a b hu
        exact noEmpty_indexExpandEntry hu
  · rw [handleNewTransaction_eq_assert s0 source key_value sa0 sr0 kc ic
      aov hA]
    exact h

theorem noEmpty_addConnection {s : ServerState} {ch : Chan} {ident : String}
    (h : NoEmptyIdxIdBuckets s) :
    NoEmptyIdxIdBuckets (addConnection s ch ident).1 := by
  have hc : NoEmptyIdxIdBuckets (createConnectionEntry s ident).1 := by
    unfold createConnectionEntry
    exact noEmpty_handleNewTransaction none _ _ _ _ _ _ h
  simp only [addConnection]
  split <;> exact hc

theorem noEmpty_scrubChannel {s : ServerState} {ch : Chan}
    {cs : ChannelState} (h : NoEmptyIdxIdBuckets s) :
    NoEmptyIdxIdBuckets (scrubChannel s ch cs) := by
  obtain ⟨hi, hd⟩ := h
  constructor
  · intro ik
    simp only [scrubChannel]
    split
    · split
      · split
        · intro hcon
          cases hcon
        · rename_i hb
          intro hcon
          injection hcon with hcon
          exact hb hcon
      · intro hcon
        cases hcon
    · exact hi ik
  · intro i
    simp only [scrubChannel]
    split
    · split
      · split
        · intro hcon
          cases hcon
        · rename_i hb
          intro hcon
          injection hcon with hcon
          exact hb hcon
      · intro hcon
        cases hcon
    · exact hd i

theorem noEmpty_subscribeOneType {s : ServerState} {ch : Chan}
    {msg : SubMsg} (t : String) (td : TypeDef) (h : NoEmptyIdxIdBuckets s) :
    NoEmptyIdxIdBuckets (subscribeOneType s ch msg t td).1 := by
  unfold subscribeOneType
  cases hfv : msg.fieldname_and_value with
  | none => exact noEmpty_enrollType h
  | some p =>
    dsimp only
    by_cases hp : p.1 ≠ "_identity"
    · rw [if_pos hp]
      exact noEmpty_enrollIndexKey (noEmpty_enrollIds h)
    · rw [if_neg hp]
      exact noEmpty_enrollIds h

theorem noEmpty_subLoop (ch : Chan) (msg : SubMsg) :
    ∀ (l : SchemaDef)
      (acc : ServerState × List (DataKey × Option String) ×
        List (IndexKey × Finset String) × Finset String),
      NoEmptyIdxIdBuckets acc.1 →
      NoEmptyIdxIdBuckets (subLoop ch msg acc l).1 := by
  intro l
  induction l with
  | nil => intro acc h; exact h
  | cons p rest ih =>
    intro acc h
    rw [subLoop]
    exact ih _ (noEmpty_subscribeOneType p.1 p.2 h)

theorem noEmpty_doSubscribe {s : ServerState} {ch : Chan} {msg : SubMsg}
    (h : NoEmptyIdxIdBuckets s) :
    NoEmptyIdxIdBuckets (doSubscribe s ch msg).1 := by
  unfold doSubscribe
  cases hr : handleSubscription s ch msg with
  | error e => exact h
  | ok r =>
    rcases handleSubscription_ok_cases hr with
      ⟨cs, defn, hcc, _, _, _, hre⟩ |
      ⟨cs, defn, t, td, hcc, _, _, _, _, hre⟩ |
      ⟨cs, defn, t, td, p, hcc, _, _, _, _, hre⟩
    · subst hre
      exact noEmpty_subLoop ch msg defn _ h
    · subst hre
      exact noEmpty_subscribeOneType t td h
    · subst hre
      exact noEmpty_subscribeOneType t td h

theorem reachable_noEmpty {s : ServerState} (h : Reachable s) :
    NoEmptyIdxIdBuckets s := by
  induction h with
  | init kv =>
    constructor
    · intro ik hcon
      cases hcon
    · intro i hcon
      cases hcon
  | connect ch ident h hfresh ih =>
    exact noEmpty_addConnection ih
  | defSchema ch name defn h ih => exact ih
  | subscribe ch msg h ih => exact noEmpty_doSubscribe ih
  | commit ch key_value set_adds set_removes kc ic aov h hch ih =>
    exact noEmpty_handleNewTransaction (some ch) _ _ _ _ _ _ ih
  | drop ch h ih =>
    unfold dropConnection
    split
    · exact ih
    · exact noEmpty_handleNewTransaction none _ _ _ _ _ _
        (noEmpty_scrubChannel ih)

theorem reachable_exSchema : Reachable exSchema :=
  Reachable.defSchema 0 "S" exDefn
    (Reachable.connect 0 "c0" (Reachable.init kvEmpty) rfl)

theorem reachable_exSubT1 : Reachable exSubT.1 :=
  Reachable.subscribe 0 ⟨"S", some "T", none⟩ reachable_exSchema

theorem reachable_exDropped : Reachable exDropped :=
  Reachable.drop 0 reachable_exSubT1

/-- C4: in every server state reachable by connect, define-schema,
subscribe, commit and drop-connection operations, the fan-out maps and
the per-channel subscription sets are exact mutual inverses — a
registered channel has a key in its subscription set iff the channel is
in that key's fan-out bucket, for all three map/set pairs — and fan-out
buckets refer only to registered channels. -/
theorem reachable_subscriptions_mutual_inverse (s : ServerState)
    (h : Reachable s) : Inverse s :=
  reachable_inverse h

/-- C4 witness: a concrete reachable state with a live subscription. -/
theorem reachable_subscriptions_mutual_inverse_witness :
    Reachable exSubT.1 ∧ Inverse exSubT.1 :=
  ⟨reachable_exSubT1,
   reachable_subscriptions_mutual_inverse exSubT.1 reachable_exSubT1⟩

/-- C5 counterexample: dropping the only channel subscribed to a type
leaves `type_to_channel` with an entry whose channel set is empty, in a
reachable state — `dropConnection` discards from type buckets but never
deletes them. -/
theorem empty_type_bucket_after_drop_cex :
    Reachable exDropped ∧
    exDropped.type_to_channel ("S", "T") = some ∅ :=
  ⟨reachable_exDropped, by decide⟩

/-- C5 (amended): in every reachable server state, the
`index_key→channels` and `identity→channels` maps contain no entry with
an empty channel set — those buckets are deleted the moment they empty —
but `type_to_channel` is exempt: `dropConnection` only discards from
type buckets, so a type entry may persist with an empty set. -/
theorem reachable_no_empty_index_id_buckets (s : ServerState)
    (h : Reachable s) : NoEmptyIdxIdBuckets s :=
  reachable_noEmpty h

/-- C5 (amended) witness: the reachable state right after the drop. -/
theorem reachable_no_empty_index_id_buckets_witness :
    Reachable exDropped ∧ NoEmptyIdxIdBuckets exDropped :=
  ⟨reachable_exDropped,
   reachable_no_empty_index_id_buckets exDropped reachable_exDropped⟩

/-- C6 witness: the concrete commit creating `id1`. -/
theorem writer_exists_add_preenrolls_witness :
    exSchema.clientChannels 0 = some exCs ∧
    (exExistsT, ({"id1"} : Finset String)) ∈
      [(exExistsT, ({"id1"} : Finset String))] ∧
    ({"id1"} : Finset String) ≠ ∅ ∧
    exExistsT.fieldname = " exists" ∧
    (exExistsT.schema, exExistsT.typename) ∉ exCs.subscribedTypes ∧
    (1 : Int) < exSchema.cur_transaction_num + 1 ∧
    ((∀ i ∈ ({"id1"} : Finset String),
      0 ∈ chanBucket (handleNewTransaction exSchema (some 0)
        [(exKey, some "alice")] [(exExistsT, ({"id1"} : Finset String))]
        [] [] [] 1).1.id_to_channel i) ∧
     (∃ cs', (handleNewTransaction exSchema (some 0)
        [(exKey, some "alice")] [(exExistsT, ({"id1"} : Finset String))]
        [] [] [] 1).1.clientChannels 0 = some cs' ∧
        ({"id1"} : Finset String) ⊆ cs'.subscribedIds) ∧
     (0, SMsg.SubscriptionIncrease exExistsT.schema exExistsT.typename
        (exExistsT.fieldname, exExistsT.fieldval)
        ({"id1"} : Finset String)) ∈
       (handleNewTransaction exSchema (some 0) [(exKey, some "alice")]
         [(exExistsT, ({"id1"} : Finset String))] [] [] [] 1).2.2) :=
  ⟨rfl, by decide, by decide, rfl, by decide, by decide,
   writer_exists_add_preenrolls exSchema 0 [(exKey, some "alice")]
     [(exExistsT, ({"id1"} : Finset String))] [] [] [] 1 exCs exExistsT
     ({"id1"} : Finset String) rfl (by decide) (by decide) rfl (by decide)
     (by decide)⟩

end ObjectDatabase
